import Mathlib

/-!
# Verification of the REWET EnhancedWNTR EPANET codec

Shallow embedding of the INP text codec, the rule sub-parser, the binary
results reader (`EnhancedWNTR/epanet/io.py`) and the water-network mutation
helpers (`EnhancedWNTR/network/model.py`) of the repository, together with
proofs about the embedded operations.

Modelling conventions:
* Python floats are modelled as rationals (`ℚ`); every numeric operation the
  embedded code performs (comparison, `max`, subtraction, multiplication by a
  conversion factor, decimal formatting/parsing) is exact on the values used
  in the theorems below, so no rounding behaviour is lost.
* Python exceptions are modelled with `Except String`; the string carries the
  kind of exception raised (`IndexError`, `NameError`, ...).
* Functions imported by the source from the external `wntrfr` package (unit
  conversion, the base network registries, `ValueCondition._parse_value`) are
  not part of the repository; they are modelled from the specification and
  are marked `Modelled from the spec:` in their doc comments.
-/

deriving instance DecidableEq for Except

namespace REWET

/- ------------------------------------------------------------------ -/
/- Basic text helpers shared by the section readers                    -/
/- ------------------------------------------------------------------ -/

/-- Split a character list at every occurrence of the separator character,
keeping empty groups: the character-level meaning of Python
`str.split(sep)` for a one-character separator. -/
def splitOnChar (sep : Char) : List Char → List (List Char)
  | [] => [[]]
  | c :: rest =>
      match splitOnChar sep rest with
      | [] => [[]]
      | g :: gs => if c = sep then [] :: g :: gs else (c :: g) :: gs

/-- `line.split(';')[0]`: the text of a data line before the first inline
semicolon comment. -/
def stripComment (l : String) : String :=
  (l.toList.takeWhile fun c => c ≠ ';').asString

/-- Python `str.split()` with no argument applied to a character list:
split on runs of whitespace, dropping empty fields.  `cur` is the current
token accumulated in reverse. -/
def wsSplit (cur : List Char) : List Char → List String
  | [] => if cur.isEmpty then [] else [cur.reverse.asString]
  | c :: rest =>
      if c.isWhitespace then
        if cur.isEmpty then wsSplit [] rest
        else cur.reverse.asString :: wsSplit [] rest
      else wsSplit (c :: cur) rest

/-- Python `str.split()` with no argument: split on runs of whitespace,
dropping empty fields. -/
def fields (l : String) : List String :=
  wsSplit [] l.toList

/-- Numeric value of a list of decimal digit characters (most significant
first). -/
def digitsVal (cs : List Char) : ℕ :=
  cs.foldl (fun a c => 10 * a + (c.toNat - 48)) 0

/-- The rational value denoted by a decimal literal with the given sign,
integer digits and fraction digits:
`±(intDigits.fracDigits) = ±(I·10^k + F) / 10^k`. -/
def decimalValue (neg : Bool) (ipart fpart : List Char) : ℚ :=
  let v : ℚ := mkRat
    (digitsVal ipart * 10 ^ fpart.length + digitsVal fpart : ℕ)
    (10 ^ fpart.length)
  if neg then -v else v

/-- Python `float(s)` on plain decimal literals: optional sign, an integer
part and an optional fractional part.  (Exponent forms are accepted by
Python as well but never appear in the inputs reasoned about here.)
Returns `none` where `float` raises `ValueError`. -/
def parseRat (s : String) : Option ℚ :=
  let cs := s.toList
  let signAndRest : Bool × List Char :=
    match cs with
    | '-' :: t => (true, t)
    | '+' :: t => (false, t)
    | _ => (false, cs)
  let neg := signAndRest.1
  let rest := signAndRest.2
  let intPart := rest.takeWhile Char.isDigit
  let tail0 := rest.dropWhile Char.isDigit
  match tail0 with
  | [] =>
      if intPart.isEmpty then none
      else some (decimalValue neg intPart [])
  | '.' :: frac =>
      if frac.all Char.isDigit ∧ ¬(intPart.isEmpty ∧ frac.isEmpty) then
        some (decimalValue neg intPart frac)
      else none
  | _ => none

/-- `parseRat` lifted into `Except`, modelling the `ValueError` that
`float()` raises on unparseable text. -/
def parseRatE (s : String) : Except String ℚ :=
  match parseRat s with
  | some q => .ok q
  | none => .error "ValueError: could not convert string to float"

/- ------------------------------------------------------------------ -/
/- Unit conversion layer (external wntrfr.epanet.util)                 -/
/- ------------------------------------------------------------------ -/

/-- Modelled from the spec: the flow-unit systems of section 4.1, the US
customary units `CFS/GPM/MGD/IMGD/AFD` and the SI metric units
`LPS/LPM/MLD/CMH/CMD`, plus the internal `SI` system itself.  The source
imports `FlowUnits` from the external `wntrfr.epanet.util` module. -/
inductive FlowUnits where
  | CFS | GPM | MGD | IMGD | AFD
  | LPS | LPM | MLD | CMH | CMD
  | SI
  deriving DecidableEq, Repr

/-- Modelled from the spec: whether a flow-unit system is US customary. -/
def FlowUnits.isUS : FlowUnits → Bool
  | .CFS | .GPM | .MGD | .IMGD | .AFD => true
  | _ => false

/-- Modelled from the spec: the physical parameter kinds of section 4.1
that the embedded readers convert.  The source imports `HydParam` from the
external `wntrfr.epanet.util` module. -/
inductive HydParam where
  | Demand | Length | PipeDiameter | Pressure | HydraulicHead | Flow
  deriving DecidableEq, Repr

/-- Modelled from the spec: `to_internal(flow_unit_system, raw_value,
parameter_kind)` is a fixed multiplicative conversion factor keyed by
whether the declared unit system is US customary or SI metric (section
4.1).  Representative factors: feet→metres for lengths and heads,
inches→metres / millimetres→metres for pipe diameters, and flow factors
for demands. -/
def toSiFactor (u : FlowUnits) (p : HydParam) : ℚ :=
  match p with
  | .Length => if u.isUS then mkRat 3048 10000 else 1
  | .HydraulicHead => if u.isUS then mkRat 3048 10000 else 1
  | .PipeDiameter => if u.isUS then mkRat 254 10000 else mkRat 1 1000
  | .Pressure => if u.isUS then mkRat 703249 100000 else 1
  | .Demand => if u.isUS then mkRat 6309 100000000 else mkRat 1 1000
  | .Flow => if u.isUS then mkRat 6309 100000000 else mkRat 1 1000

/-- The exact rational product, computed on numerators and denominators
(equal to `a * b`; spelled with `mkRat` so that it evaluates by kernel
reduction). -/
def qmul (a b : ℚ) : ℚ := mkRat (a.num * b.num) (a.den * b.den)

/-- Modelled from the spec: `to_si` converts a literal file value into the
internal canonical SI representation. -/
def toSi (u : FlowUnits) (v : ℚ) (p : HydParam) : ℚ :=
  qmul (toSiFactor u p) v

/- ------------------------------------------------------------------ -/
/- C7: BinFile.read link-status conversion (io.py lines 3811-3819)     -/
/- ------------------------------------------------------------------ -/

/-- `status[status <= 2] = 0` (io.py line 3813), acting element-wise. -/
def statusStep1 (v : ℚ) : ℚ := if v ≤ 2 then 0 else v

/-- `status[status == 3] = 1` (io.py line 3814), acting element-wise. -/
def statusStep2 (v : ℚ) : ℚ := if v = 3 then 1 else v

/-- `status[status >= 5] = 1` (io.py line 3815), acting element-wise. -/
def statusStep3 (v : ℚ) : ℚ := if 5 ≤ v then 1 else v

/-- `status[status == 4] = 2` (io.py line 3816), acting element-wise. -/
def statusStep4 (v : ℚ) : ℚ := if v = 4 then 2 else v

/-- The four sequential masked in-place assignments of
`BinFile.read` applied to one stored status value. -/
def convertStatusValue (v : ℚ) : ℚ :=
  statusStep4 (statusStep3 (statusStep2 (statusStep1 v)))

/-- The status series produced by `BinFile.read`: the stored codes are
remapped element-wise when `self.convert_status` holds and are passed
through unchanged otherwise (io.py lines 3811-3819). -/
def statusSeries (convert_status : Bool) (raw : List ℚ) : List ℚ :=
  if convert_status then raw.map convertStatusValue else raw

/- ------------------------------------------------------------------ -/
/- C9: updateWaterNetworkModelWithResult tank loop (model.py 90-118)   -/
/- ------------------------------------------------------------------ -/

/-- The tank fields used by the tank loop of
`WaterNetworkModel.updateWaterNetworkModelWithResult`. -/
structure TankState where
  name : String
  elevation : ℚ
  init_level : ℚ
  min_level : ℚ
  max_level : ℚ
  is_isolated : Bool
  deriving DecidableEq, Repr

/-- The body of the tank loop of `updateWaterNetworkModelWithResult`
(model.py lines 99-118) for one tank, given the result head at the latest
time: clamp the level to be non-negative, clamp it up to `min_level`, cap
it at `max_level`, assign `init_level = abs(tank_level)`, and raise
`ValueError` when the level is still negative. -/
def updateTankFromHead (t : TankState) (head : ℚ) : Except String TankState :=
  let tank_level0 := head - t.elevation
  let tank_level1 := max tank_level0 0
  let tank_level2 := max tank_level1 t.min_level
  let tank_level :=
    if tank_level2 - t.max_level > 0 then t.max_level else tank_level2
  let updated := { t with init_level := |tank_level| }
  if tank_level < 0 then
    .error ("ValueError: Tank Level for " ++ t.name ++ " is less than zero")
  else
    .ok updated

/-- One step of the tank loop: isolated tanks are skipped, tanks whose name
is not a column of the result head frame are skipped (the loop runs over
the intersection of the tank names with the result columns), all other
tanks are updated from the result head (model.py lines 87-118). -/
def processTank (headOf : String → Option ℚ) (t : TankState) :
    Except String TankState :=
  if t.is_isolated then .ok t
  else
    match headOf t.name with
    | none => .ok t
    | some h => updateTankFromHead t h

/- ------------------------------------------------------------------ -/
/- C2 / C8: BinFile.read row handling and epilog (io.py 3483-3887)     -/
/- ------------------------------------------------------------------ -/

/-- The statistics-mode codes of the binary prolog (`StatisticsType`,
external `wntrfr.epanet.util`): `NoStats`/`Average`/`Minimum`/`Maximum`/
`Range`. -/
inductive StatisticsType where
  | NoStats | Average | Minimum | Maximum | Range
  deriving DecidableEq, Repr

/-- The prolog integers of the binary results file that drive the report
row logic of `BinFile.read` (io.py lines 3512-3527). -/
structure BinProlog where
  magic : ℤ
  nnodes : ℕ
  nlinks : ℕ
  statsflag : StatisticsType
  reportstart : ℕ
  reportstep : ℕ
  duration : ℕ
  deriving DecidableEq, Repr

/-- The epilog block of the binary results file: 4 running-average floats,
an unused int32, a warning flag and the closing magic number (io.py lines
3872-3876). -/
structure BinEpilog where
  averages : List ℚ
  warnflag : ℤ
  magic : ℤ
  deriving DecidableEq, Repr

/-- `np.arange(start, stop, step)` on non-negative integers. -/
def arange (start stop step : ℕ) : List ℕ :=
  if step = 0 then []
  else (List.range ((stop - start + step - 1) / step)).map
    (fun i => start + i * step)

/-- The report times computed by `BinFile.read`:
`np.arange(reportstart, duration + reportstep - duration % reportstep,
reportstep)` (io.py lines 3631-3635). -/
def reportTimes (p : BinProlog) : List ℕ :=
  arange p.reportstart
    (p.duration + p.reportstep - p.duration % p.reportstep) p.reportstep

/-- `4*nnodes + 8*nlinks`: the number of floats of one report row. -/
def rowWidth (p : BinProlog) : ℕ := 4 * p.nnodes + 8 * p.nlinks

/-- The expected number of report rows: the length of the report-time
vector, reduced to one row for the Minimum/Maximum/Range statistics modes
(io.py lines 3636-3645). -/
def expectedRows (p : BinProlog) : ℕ :=
  if p.statsflag = .Minimum ∨ p.statsflag = .Maximum ∨ p.statsflag = .Range
  then 1 else (reportTimes p).length

/-- The report-time vector actually used, after the statistics-mode
reduction (io.py lines 3638-3644). -/
def usedReportTimes (p : BinProlog) : List ℕ :=
  if p.statsflag = .Minimum ∨ p.statsflag = .Maximum ∨ p.statsflag = .Range
  then [p.reportstart + p.reportstep] else reportTimes p

/-- Helper for `chunkRows`: structural recursion on a fuel argument that
starts at the list length (each step with a positive width consumes at
least one element, so the fuel never runs out first). -/
def chunkRowsFuel (w : ℕ) : ℕ → List ℚ → List (List ℚ)
  | 0, _ => []
  | _ + 1, [] => []
  | fuel + 1, x :: xs =>
      if w = 0 then []
      else (x :: xs).take w :: chunkRowsFuel w fuel ((x :: xs).drop w)

/-- Split a flat float vector into rows of width `w` (numpy `reshape`). -/
def chunkRows (w : ℕ) (xs : List ℚ) : List (List ℚ) :=
  chunkRowsFuel w xs.length xs

/-- The results object produced by `BinFile.read`, restricted to what the
row logic determines: the time index of the report series, the raw decoded
rows, and the convergence error flag
(`results.error_code = ResultsStatus.error`). -/
structure BinResults where
  time : List ℕ
  rows : List (List ℚ)
  error_code : Bool
  deriving DecidableEq, Repr

/-- The report-row and epilog logic of `BinFile.read` (io.py lines
3713-3887).  `raw` is the float stream of the report-data region of the
file (`np.fromfile` reads at most the requested
`(4*nnodes+8*nlinks)*nrptsteps` values and returns fewer if the file ends
early); `epilog` is `none` when the file ends before the epilog.  `strict`
is the `convergence_error` argument.  When fewer full rows are present
than expected, strict mode raises and lenient mode truncates the data and
the time index to the rows present and sets the error code.  The returned
boolean is `magic1 == magic2`, the value handed to `finalize_save`; a
mismatch is only logged (`logger.critical`), it never raises and never
alters the decoded series. -/
def binRead (p : BinProlog) (raw : List ℚ) (epilog : Option BinEpilog)
    (strict : Bool) : Except String (BinResults × Bool) :=
  let nrpt := expectedRows p
  let rt := usedReportTimes p
  let w := rowWidth p
  let data := raw.take (w * nrpt)
  let N := data.length / w
  let goodRead := decide (epilog.map BinEpilog.magic = some p.magic)
  if nrpt > N then
    if strict then
      .error "RuntimeError: Simulation did not converge"
    else
      .ok ({ time := rt.take N,
             rows := chunkRows w (data.take (N * w)),
             error_code := true }, goodRead)
  else
    .ok ({ time := rt, rows := chunkRows w data, error_code := false },
      goodRead)

/- ------------------------------------------------------------------ -/
/- C6 / C1: the [PATTERNS] reader and writer (io.py 1201-1254)         -/
/- ------------------------------------------------------------------ -/

/-- `float(i)` applied to each remaining field of a pattern line
(io.py lines 1212-1216); the first failure aborts the read. -/
def parseFloats : List String → Except String (List ℚ)
  | [] => .ok []
  | s :: rest => do
      let v ← parseRatE s
      let vs ← parseFloats rest
      .ok (v :: vs)

/-- Append multiplier values to the entry of `name` in the ordered
pattern dictionary, creating an empty entry first when the name is new
(io.py lines 1210-1216; `_patterns` is an `OrderedDict`, so a new name
goes to the end and an existing name keeps its position). -/
def patAppend (d : List (String × List ℚ)) (name : String)
    (vals : List ℚ) : List (String × List ℚ) :=
  match d with
  | [] => [(name, vals)]
  | (n, vs) :: rest =>
      if n = name then (n, vs ++ vals) :: rest
      else (n, vs) :: patAppend rest name vals

/-- The line loop of `InpFile._read_patterns` (io.py lines 1201-1216):
strip the inline comment, split on whitespace, skip blank lines, and
append the parsed multipliers of each line to the dictionary entry of the
line's leading name token. -/
def readPatternsAux (d : List (String × List ℚ)) :
    List String → Except String (List (String × List ℚ))
  | [] => .ok d
  | l :: rest =>
      match fields (stripComment l) with
      | [] => readPatternsAux d rest
      | name :: vals => do
          let qs ← parseFloats vals
          readPatternsAux (patAppend d name qs) rest

/-- `InpFile._read_patterns` restricted to the dictionary it builds; the
subsequent `add_pattern` loop (io.py lines 1217-1219) registers exactly
these entries. -/
def readPatterns (ls : List String) :
    Except String (List (String × List ℚ)) :=
  readPatternsAux [] ls

/-- The leading name token of a pattern data line, `none` for a blank
line. -/
def patternLineName (l : String) : Option String :=
  (fields (stripComment l)).head?

/-- Whether some data line of the section carries the leading name token
`n`. -/
def namesPattern (n : String) (ls : List String) : Bool :=
  ls.any fun l => decide (patternLineName l = some n)

/-- The multipliers contributed to pattern `n` by the section lines, in
file order (the statement side of C6: the concatenation of the values of
all lines whose leading token is `n`). -/
def specMultipliers (ls : List String) (n : String) : List ℚ :=
  (ls.filterMap fun l =>
    match fields (stripComment l) with
    | [] => none
    | name :: vals => if name = n then (parseFloats vals).toOption
                      else none).join

/-- Left-pad a digit string with zeros to width `k`. -/
def padZeros (s : String) (k : ℕ) : String :=
  (List.replicate (k - s.length) '0').asString ++ s

/-- `|x| · 10^6` rounded half-up to an integer, computed on the numerator
and denominator: `⌊|x| * 1000000 + 1/2⌋ = (2·|num|·10^6 + den) / (2·den)`
in integer division. -/
def fmt6Nat (x : ℚ) : ℕ :=
  (2 * x.num.natAbs * 1000000 + x.den) / (2 * x.den)

/-- The text produced by the Python format `f-string` with format spec
`f` (fixed-point, 6 decimal places), used by `InpFile._write_patterns`
for every multiplier (io.py lines 1249-1251).  Rounds the value to 6
decimal places; Python rounds ties of the underlying binary double to
even, a case that does not arise for the values used here. -/
def fmtF (x : ℚ) : String :=
  let sgn := if x < 0 then "-" else ""
  let n := fmt6Nat x
  sgn ++ toString (n / 1000000) ++ "." ++ padZeros (toString (n % 1000000)) 6

/-- The lines `InpFile._write_patterns` emits for one pattern (io.py
lines 1244-1253): the multipliers in groups of `num_columns = 6`, each
line starting with the pattern name, each value formatted with `f`. -/
def writePatternLines (name : String) (ms : List ℚ) : List String :=
  (chunkRows 6 ms).map fun grp =>
    name ++ " " ++ String.intercalate " " (grp.map fmtF)

/-- The `[PATTERNS]` section body `InpFile._write_patterns` emits for a
model's patterns, in model order. -/
def writePatterns (ps : List (String × List ℚ)) : List String :=
  (ps.map fun p => writePatternLines p.1 p.2).join

/- ------------------------------------------------------------------ -/
/- C3: the [DEMANDS] reader (io.py 1622-1652)                          -/
/- ------------------------------------------------------------------ -/

/-- One entry of a junction's `demand_timeseries_list`: the SI base
value, the optional pattern name and the optional category text. -/
structure DemandEntry where
  base : ℚ
  pattern : Option String
  category : Option String
  deriving DecidableEq, Repr

/-- Replace the demand list of the named junction (the
`while len(...) > 0: del ...; append` clearing path of
`InpFile._read_demands`, io.py lines 1640-1643, followed by the append). -/
def setDemands (st : List (String × List DemandEntry)) (name : String)
    (es : List DemandEntry) : List (String × List DemandEntry) :=
  st.map fun kv => (kv.1, if kv.1 = name then es else kv.2)

/-- Append one entry to the demand list of the named junction
(`node.demand_timeseries_list.append`, io.py lines 1646-1652). -/
def appendEntry (st : List (String × List DemandEntry)) (name : String)
    (e : DemandEntry) : List (String × List DemandEntry) :=
  st.map fun kv => (kv.1, if kv.1 = name then kv.2 ++ [e] else kv.2)

/-- The junction a `[DEMANDS]` data line names: the first whitespace
field of the text before the first semicolon (`current[0]`,
io.py line 1635); `none` for a blank line. -/
def demandLineName (l : String) : Option String :=
  (wsSplit [] ((splitOnChar ';' l.toList).headD [])).head?

/-- The demand entry denoted by one non-blank `[DEMANDS]` data line
(io.py lines 1626-1652): the category is the text between the first and
second semicolon when non-empty; the pattern field is absent for
two-field records, otherwise `current[2]` must name an existing pattern
(`get_pattern` raises when it does not, and a one-field record dies with
an `IndexError` there first); the base value is `current[1]` converted
with `to_si(..., HydParam.Demand)`. -/
def demandEntryOf (u : FlowUnits) (patterns : List String) (l : String) :
    Except String DemandEntry :=
  let ldata := splitOnChar ';' l.toList
  let category : Option String :=
    match ldata with
    | _ :: c :: _ => if c.isEmpty then none else some c.asString
    | _ => none
  let current := wsSplit [] (ldata.headD [])
  do
    let pattern ←
      if current.length = 2 then Except.ok none
      else if current.length < 3 then
        Except.error "IndexError: list index out of range"
      else if (current.getD 2 "") ∈ patterns then
        Except.ok (some (current.getD 2 ""))
      else Except.error "KeyError: pattern not found"
    let v ← parseRatE (current.getD 1 "")
    Except.ok { base := toSi u v .Demand, pattern := pattern,
                category := category }

/-- The line loop of `InpFile._read_demands` (io.py lines 1622-1652):
blank lines are skipped; the named node must exist; the first line naming
a junction within the section deletes all demand entries previously
attached to it (including the `[JUNCTIONS]` base demand) before appending
its own entry; every later line naming the same junction appends. -/
def readDemandsAux (u : FlowUnits) (patterns : List String)
    (st : List (String × List DemandEntry)) (readSet : List String) :
    List String → Except String (List (String × List DemandEntry))
  | [] => .ok st
  | l :: rest =>
      match wsSplit [] ((splitOnChar ';' l.toList).headD []) with
      | [] => readDemandsAux u patterns st readSet rest
      | name :: _ =>
          if name ∈ st.map Prod.fst then
            match demandEntryOf u patterns l with
            | .error e => .error e
            | .ok entry =>
                if name ∈ readSet then
                  readDemandsAux u patterns (appendEntry st name entry)
                    readSet rest
                else
                  readDemandsAux u patterns (setDemands st name [entry])
                    (name :: readSet) rest
          else .error "KeyError: node not found"

/-- `InpFile._read_demands` over a whole section: the `has_been_read` set
starts empty for each read. -/
def readDemands (u : FlowUnits) (patterns : List String)
    (st : List (String × List DemandEntry)) (ls : List String) :
    Except String (List (String × List DemandEntry)) :=
  readDemandsAux u patterns st [] ls

/-- Whether some data line of the `[DEMANDS]` section names junction
`j`. -/
def namesDemand (j : String) (ls : List String) : Bool :=
  ls.any fun l => decide (demandLineName l = some j)

/-- The demand entries the section attaches to junction `j`, in file
order (the statement side of C3). -/
def specDemandEntries (u : FlowUnits) (patterns : List String)
    (ls : List String) (j : String) : List DemandEntry :=
  ls.filterMap fun l =>
    if demandLineName l = some j then (demandEntryOf u patterns l).toOption
    else none

/- ------------------------------------------------------------------ -/
/- C5: the [PIPES] reader (io.py 812-845)                              -/
/- ------------------------------------------------------------------ -/

/-- Character-wise uppercase conversion (Python `str.upper()` for the
ASCII tokens that appear in INP files). -/
def toUpperStr (s : String) : String :=
  (s.toList.map Char.toUpper).asString

/-- Modelled from the spec: the link status values of the external
`wntrfr.network.base.LinkStatus` enum used by the pipe reader. -/
inductive LinkStatus where
  | Open | Closed | Active
  deriving DecidableEq, Repr

/-- Modelled from the spec: `LinkStatus[current[7].upper()]` — resolve an
uppercased status token to a `LinkStatus` member, raising a lookup error
for an unknown token. -/
def parseStatus (s : String) : Except String LinkStatus :=
  if toUpperStr s = "OPEN" then .ok .Open
  else if toUpperStr s = "CLOSED" then .ok .Closed
  else if toUpperStr s = "ACTIVE" then .ok .Active
  else .error "KeyError: unknown LinkStatus name"

/-- The three local variables of the `_read_pipes` loop that are only
assigned inside the 8/7/6-field branches (`minor_loss`, `link_status`,
`check_valve`, io.py lines 818-833) and therefore carry over from one
record to the next when no branch runs. -/
structure PipeCarry where
  minorLoss : ℚ
  status : LinkStatus
  checkValve : Bool
  deriving DecidableEq, Repr

/-- The arguments `_read_pipes` passes to `wn.add_pipe` for one record
(io.py lines 835-845). -/
structure PipeRec where
  name : String
  startNodeName : String
  endNodeName : String
  length : ℚ
  diameter : ℚ
  roughness : ℚ
  minorLoss : ℚ
  initialStatus : LinkStatus
  checkValve : Bool
  deriving DecidableEq, Repr

/-- The 8/7/6-field branch chain of `_read_pipes` (io.py lines 818-833):
8 fields parse a minor loss and a status token (`CV` marks a check
valve), 7 fields parse a minor loss with status Open, 6 fields default
the optional values, and any other field count leaves the three local
variables as the previous record left them. -/
def pipeCarryStep (carry : Option PipeCarry) (current : List String) :
    Except String (Option PipeCarry) :=
  if current.length = 8 then
    (parseRatE (current.getD 6 "")).bind fun ml =>
      if toUpperStr (current.getD 7 "") = "CV" then
        .ok (some { minorLoss := ml, status := .Open, checkValve := true })
      else
        (parseStatus (current.getD 7 "")).bind fun st =>
          .ok (some { minorLoss := ml, status := st, checkValve := false })
  else if current.length = 7 then
    (parseRatE (current.getD 6 "")).bind fun ml =>
      .ok (some { minorLoss := ml, status := .Open, checkValve := false })
  else if current.length = 6 then
    .ok (some { minorLoss := 0, status := .Open, checkValve := false })
  else .ok carry

/-- The `wn.add_pipe(...)` call of `_read_pipes` (io.py lines 835-845):
its arguments are evaluated left to right — `current[0..2]`, then
`float(current[3])`, `float(current[4])`, `float(current[5])`, then the
optional locals.  A missing index dies with an `IndexError` and an
unparseable numeric field with a `ValueError`, whichever is hit first; a
record whose field count ran no branch dies with a `NameError` when the
optional locals were never assigned; otherwise a pipe record is
produced. -/
def pipeAdd (u : FlowUnits) (carry : Option PipeCarry)
    (current : List String) : Except String PipeRec :=
  if current.length < 4 then
    .error "IndexError: list index out of range"
  else
    (parseRatE (current.getD 3 "")).bind fun len =>
      if current.length < 5 then
        .error "IndexError: list index out of range"
      else
        (parseRatE (current.getD 4 "")).bind fun dia =>
          if current.length < 6 then
            .error "IndexError: list index out of range"
          else
            (parseRatE (current.getD 5 "")).bind fun rough =>
          match carry with
          | none => .error "NameError: name minor_loss is not defined"
          | some c =>
              .ok { name := current.getD 0 ""
                    startNodeName := current.getD 1 ""
                    endNodeName := current.getD 2 ""
                    length := toSi u len .Length
                    diameter := toSi u dia .PipeDiameter
                    roughness := rough
                    minorLoss := c.minorLoss
                    initialStatus := c.status
                    checkValve := c.checkValve }

/-- The line loop of `InpFile._read_pipes` (io.py lines 812-845),
collecting the pipe records handed to `wn.add_pipe`, with the
optional-field locals threaded from record to record. -/
def readPipesAux (u : FlowUnits) (carry : Option PipeCarry) :
    List String → Except String (List PipeRec)
  | [] => .ok []
  | l :: rest =>
      if (fields (stripComment l)).isEmpty then readPipesAux u carry rest
      else
        (pipeCarryStep carry (fields (stripComment l))).bind fun carry2 =>
          (pipeAdd u carry2 (fields (stripComment l))).bind fun rec0 =>
            (readPipesAux u carry2 rest).bind fun others =>
              .ok (rec0 :: others)

/-- `InpFile._read_pipes` over a whole section: the optional-field locals
are unassigned before the first record. -/
def readPipes (u : FlowUnits) (ls : List String) :
    Except String (List PipeRec) :=
  readPipesAux u none ls

/- ------------------------------------------------------------------ -/
/- C4: the [RULES] sub-parser (io.py 2899-3346)                        -/
/- ------------------------------------------------------------------ -/

/-- Character-wise lowercase conversion (Python `str.lower()` for the
ASCII tokens that appear in INP files). -/
def toLowerStr (s : String) : String :=
  (s.toList.map Char.toLower).asString

/-- The clause keywords of `_EpanetRule.parse_rules_lines`
(io.py lines 2928-2936). -/
def ruleKeywords : List String :=
  ["RULE", "IF", "THEN", "ELSE", "AND", "OR", "PRIORITY"]

/-- Pass 1 of `parse_rules_lines` (io.py lines 2922-2944): walk the word
stream of all lines; an uppercased keyword closes the clause accumulated
so far (when non-empty) and every word is appended to the current clause.
`cur` holds the current clause in reverse, `acc` the finished clauses in
reverse. -/
def regroupAux (acc : List String) (cur : List String) :
    List String → List String
  | [] =>
      (if cur.isEmpty then acc
       else String.intercalate " " cur.reverse :: acc).reverse
  | w :: ws =>
      if toUpperStr w ∈ ruleKeywords ∧ ¬cur.isEmpty then
        regroupAux (String.intercalate " " cur.reverse :: acc) [w] ws
      else regroupAux acc (w :: cur) ws

/-- The logical clause lines produced by pass 1 of `parse_rules_lines`
from the raw section lines (each stripped of its inline comment and
split on whitespace). -/
def regroupRuleLines (lines : List String) : List String :=
  regroupAux [] [] ((lines.map fun l => fields (stripComment l)).join)

/-- `int(float(s))` on an already-parsed float: truncation toward zero
(`_EpanetRule.set_priority`, io.py line 3188). -/
def intOfFloat (q : ℚ) : ℤ :=
  if 0 ≤ q then Rat.floor q else -(Rat.floor (-q))

/-- The textual rule built by pass 2 of `parse_rules_lines`: the rule id
and the raw `IF`/`THEN`/`ELSE` clause lines plus the parsed priority
(`_EpanetRule.__init__`, io.py lines 2902-2909). -/
structure ERule where
  ruleID : String
  ifClauses : List String
  thenClauses : List String
  elseClauses : List String
  priority : ℤ
  deriving DecidableEq, Repr

/-- The clause mode of pass 2 (the `in_if`/`in_then`/`in_else` booleans
of io.py lines 2917-2919; `start` is all-false). -/
inductive RuleMode where
  | start | inIf | inThen | inElse
  deriving DecidableEq, Repr

/-- Pass 2 of `parse_rules_lines` (io.py lines 2946-2989): dispatch each
logical clause on its leading keyword; `RULE` finishes the current rule
and opens a new one, `IF`/`THEN`/`ELSE` add the clause and set the mode,
`PRIORITY` parses an integer priority, and any other leading token
continues the clause list selected by the current mode. -/
def rulesPass2 (rules : List ERule) (rule : Option ERule)
    (mode : RuleMode) : List String → Except String (List ERule)
  | [] => .ok (rules ++ (match rule with | some r => [r] | none => []))
  | line :: restL =>
      match fields line with
      | [] => rulesPass2 rules rule mode restL
      | w :: ws =>
          if toUpperStr w = "RULE" then
            match ws with
            | [] => .error "IndexError: list index out of range"
            | rid :: _ =>
                rulesPass2
                  (rules ++ (match rule with | some r => [r] | none => []))
                  (some { ruleID := rid, ifClauses := [], thenClauses := []
                          elseClauses := [], priority := 0 })
                  .start restL
          else if toUpperStr w = "IF" then
            match rule with
            | none => .error "AttributeError: rule is None"
            | some r =>
                rulesPass2 rules
                  (some { r with ifClauses := r.ifClauses ++ [line] })
                  .inIf restL
          else if toUpperStr w = "THEN" then
            match rule with
            | none => .error "AttributeError: rule is None"
            | some r =>
                rulesPass2 rules
                  (some { r with thenClauses := r.thenClauses ++ [line] })
                  .inThen restL
          else if toUpperStr w = "ELSE" then
            match rule with
            | none => .error "AttributeError: rule is None"
            | some r =>
                rulesPass2 rules
                  (some { r with elseClauses := r.elseClauses ++ [line] })
                  .inElse restL
          else if toUpperStr w = "PRIORITY" then
            match rule with
            | none => .error "AttributeError: rule is None"
            | some r =>
                match ws with
                | [] => .error "IndexError: list index out of range"
                | p :: _ =>
                    match parseRat p with
                    | none => .error "ValueError: could not parse priority"
                    | some q =>
                        rulesPass2 rules
                          (some { r with priority := intOfFloat q })
                          .start restL
          else
            match mode with
            | .inIf =>
                match rule with
                | none => .error "AttributeError: rule is None"
                | some r =>
                    rulesPass2 rules
                      (some { r with ifClauses := r.ifClauses ++ [line] })
                      mode restL
            | .inThen =>
                match rule with
                | none => .error "AttributeError: rule is None"
                | some r =>
                    rulesPass2 rules
                      (some { r with
                        thenClauses := r.thenClauses ++ [line] })
                      mode restL
            | .inElse =>
                match rule with
                | none => .error "AttributeError: rule is None"
                | some r =>
                    rulesPass2 rules
                      (some { r with
                        elseClauses := r.elseClauses ++ [line] })
                      mode restL
            | .start => rulesPass2 rules rule mode restL

/-- `_EpanetRule.parse_rules_lines` (io.py lines 2911-2989): regroup the
raw section lines into logical clauses, then build the textual rules. -/
def parseRulesLines (lines : List String) : Except String (List ERule) :=
  rulesPass2 [] none .start (regroupRuleLines lines)

/-- A parsed rule value: either a number or a symbolic link status. -/
inductive RuleValue where
  | num (q : ℚ)
  | status (s : LinkStatus)
  deriving DecidableEq, Repr

/-- Modelled from the spec: `ValueCondition._parse_value` of the external
`wntrfr.network.controls` — numeric strings parse as floats and status
keywords resolve by symbolic name. -/
def parseValue (s : String) : Except String RuleValue :=
  match parseRat s with
  | some q => .ok (.num q)
  | none =>
      if toUpperStr s = "CLOSED" then .ok (.status .Closed)
      else if toUpperStr s = "OPEN" then .ok (.status .Open)
      else if toUpperStr s = "ACTIVE" then .ok (.status .Active)
      else .error "ValueError: could not parse value"

/-- `to_si` applied to a rule value: numbers are converted, symbolic
statuses pass through (the source only reaches the conversion branches
with numeric thresholds for the attributes exercised here). -/
def toSiValue (u : FlowUnits) (v : RuleValue) (p : HydParam) : RuleValue :=
  match v with
  | .num q => .num (toSi u q p)
  | .status s => .status s

/-- The kind of a link in the model, as far as the rule generator's
`isinstance`/`valve_type` dispatch needs it. -/
inductive LinkKind where
  | pipe | pump | valve (vtype : String)
  deriving DecidableEq, Repr

/-- The part of the water network model the rule generator consults:
`get_node` and `get_link` by name (io.py lines 3250-3271, 3298, 3322). -/
structure RuleModel where
  nodes : List String
  links : List (String × LinkKind)
  deriving DecidableEq, Repr

/-- A generated condition tree (`ValueCondition`, `SimTimeCondition`,
`TimeOfDayCondition`, `AndCondition`, `OrCondition` of the external
`wntrfr.network.controls`, restricted to the fields `generate_control`
fills in). -/
inductive RCondition where
  | value (objName : String) (objIsNode : Bool) (attr : String)
      (relation : String) (v : RuleValue)
  | simTime (relation : String) (threshold : String)
  | clockTime (relation : String) (threshold : String)
  | andC (a b : RCondition)
  | orC (a b : RCondition)
  deriving DecidableEq, Repr

/-- A generated control action (`ControlAction(link, attr, value)`). -/
structure RAction where
  link : String
  attr : String
  value : RuleValue
  deriving DecidableEq, Repr

/-- A generated rule (`Rule(final_condition, then_acts, else_acts,
priority, name)`, io.py lines 3340-3346). -/
structure RRule where
  cond : Option RCondition
  thenActs : List RAction
  elseActs : List RAction
  priority : ℤ
  name : String
  deriving DecidableEq, Repr

/-- The per-attribute unit conversion of a condition or action value
(io.py lines 3241-3257 and 3301-3314): demand/head/level/flow/pressure
convert by their parameter kind; `setting` branches on the target link's
kind, converting pressure for PRV/PBV/PSV valves and flow for FCV
valves. -/
def convertRuleValue (u : FlowUnits) (model : RuleModel)
    (linkName : String) (attr : String) (v0 : RuleValue)
    (settingNeedsLink : Bool) : Except String RuleValue :=
  if attr = "demand" then .ok (toSiValue u v0 .Demand)
  else if attr = "head" ∨ attr = "level" then
    .ok (toSiValue u v0 .HydraulicHead)
  else if attr = "flow" then .ok (toSiValue u v0 .Flow)
  else if attr = "pressure" then .ok (toSiValue u v0 .Pressure)
  else if attr = "setting" then
    match List.lookup linkName model.links with
    | none =>
        if settingNeedsLink then .error "KeyError: link not found"
        else .ok v0
    | some (.valve vt) =>
        if toUpperStr vt = "PRV" ∨ toUpperStr vt = "PBV" ∨
            toUpperStr vt = "PSV" then
          .ok (toSiValue u v0 .Pressure)
        else if toUpperStr vt = "FCV" then .ok (toSiValue u v0 .Flow)
        else .ok v0
    | some _ => .ok v0
  else .ok v0

/-- One `IF`/`AND`/`OR` clause of `generate_control` (io.py lines
3223-3274): `SYSTEM DEMAND` is unsupported and leaves the condition
`None`; `SYSTEM TIME`/`SYSTEM CLOCKTIME` build time conditions; other
clauses parse the threshold, convert it by attribute, and build a
`ValueCondition` on the named node or link. -/
def genCondition (u : FlowUnits) (model : RuleModel) (line : String) :
    Except String (Option RCondition) :=
  let words := fields line
  if toUpperStr (words.getD 1 "") = "SYSTEM" then
    if toUpperStr (words.getD 2 "") = "DEMAND" then .ok none
    else if toUpperStr (words.getD 2 "") = "TIME" then
      .ok (some (.simTime (words.getD 3 "")
        (String.intercalate " " (words.drop 4))))
    else
      .ok (some (.clockTime (words.getD 3 "")
        (String.intercalate " " (words.drop 4))))
  else
    let attr := toLowerStr (words.getD 3 "")
    (parseValue (words.getD 5 "")).bind fun v0 =>
      (convertRuleValue u model (words.getD 2 "") attr v0 true).bind
        fun v =>
          let w1 := toUpperStr (words.getD 1 "")
          if w1 = "NODE" ∨ w1 = "JUNCTION" ∨ w1 = "RESERVOIR" ∨
              w1 = "TANK" then
            if (words.getD 2 "") ∈ model.nodes then
              .ok (some (.value (words.getD 2 "") true attr
                (toLowerStr (words.getD 4 "")) v))
            else .error "KeyError: node not found"
          else if w1 = "LINK" ∨ w1 = "PIPE" ∨ w1 = "PUMP" ∨
              w1 = "VALVE" then
            if (List.lookup (words.getD 2 "") model.links).isSome then
              .ok (some (.value (words.getD 2 "") false attr
                (toLowerStr (words.getD 4 "")) v))
            else .error "KeyError: link not found"
          else .ok none

/-- The `condition_list` update for one clause (io.py lines 3275-3285):
`IF`/`AND` append the condition, `OR` pops the most recent condition and
pushes the disjunction, any other leading token drops the condition. -/
def applyClause (lst : List (Option RCondition)) (w0 : String)
    (c : Option RCondition) : Except String (List (Option RCondition)) :=
  if toUpperStr w0 = "IF" ∨ toUpperStr w0 = "AND" then .ok (lst ++ [c])
  else if toUpperStr w0 = "OR" then
    match lst.getLast? with
    | some other =>
        match other, c with
        | some o, some cc => .ok (lst.dropLast ++ [some (.orC o cc)])
        | _, _ => .error "TypeError: None condition in OrCondition"
    | none => .error "NameError: name other is not defined"
  else .ok lst

/-- The left fold that conjoins the accumulated conditions
(io.py lines 3286-3291); a `None` entry from an unsupported clause makes
the conjunction unrepresentable. -/
def finalCondition (lst : List (Option RCondition)) :
    Except String (Option RCondition) :=
  lst.foldlM
    (fun acc c =>
      match acc, c with
      | none, c2 => .ok c2
      | some f, some c2 => .ok (some (.andC f c2))
      | some _, none => .error "TypeError: None condition in AndCondition")
    none

/-- One `THEN`/`ELSE` action clause of `generate_control` (io.py lines
3292-3339): look the target link up, parse the value token, convert it by
attribute (with the valve-kind dispatch for `setting`), and build the
action. -/
def genAction (u : FlowUnits) (model : RuleModel) (line : String) :
    Except String RAction :=
  let words := fields line
  if (List.lookup (words.getD 2 "") model.links).isSome then
    let attr := toLowerStr (words.getD 3 "")
    (parseValue (words.getD 5 "")).bind fun v0 =>
      (convertRuleValue u model (words.getD 2 "") attr v0 false).bind
        fun v => .ok { link := words.getD 2 "", attr := attr, value := v }
  else .error "KeyError: link not found"

/-- `_EpanetRule.generate_control` (io.py lines 3221-3346). -/
def generateControl (u : FlowUnits) (model : RuleModel) (r : ERule) :
    Except String RRule :=
  (r.ifClauses.foldlM
      (fun lst line =>
        (genCondition u model line).bind fun c =>
          applyClause lst ((fields line).getD 0 "") c)
      []).bind fun condList =>
    (finalCondition condList).bind fun fc =>
      (r.thenClauses.mapM (genAction u model)).bind fun thens =>
        (r.elseClauses.mapM (genAction u model)).bind fun elses =>
          .ok { cond := fc, thenActs := thens, elseActs := elses,
                priority := r.priority, name := r.ruleID }

/- ------------------------------------------------------------------ -/
/- C10: implicit-leak round trip (model.py 184-233, 279-288)           -/
/- ------------------------------------------------------------------ -/

/-- The emitter coefficient assigned to the synthetic leak junction:
`cd = leak_area · √2 / √0.145038` (model.py lines 216-220).  The factor
`√2/√0.145038` is a fixed positive irrational constant, so the
coefficient is represented by its `leak_area` argument, which determines
it uniquely and keeps the state decidable. -/
structure EmitterCoeff where
  leakArea : ℚ
  deriving DecidableEq, Repr

/-- The node fields touched by the leak helpers of
`EnhancedWNTR.network.model.WaterNetworkModel`. -/
structure WNNode where
  name : String
  elevation : ℚ
  coordX : ℚ
  coordY : ℚ
  leak : Bool
  leakArea : ℚ
  emitter : Option EmitterCoeff
  demands : List ℚ
  deriving DecidableEq, Repr

/-- The link fields touched by the leak helpers. -/
structure WNLink where
  name : String
  startNodeName : String
  endNodeName : String
  diameter : ℚ
  length : ℚ
  roughness : ℚ
  minorLoss : ℚ
  checkValve : Bool
  deriving DecidableEq, Repr

/-- One entry of `self.expicit_leak` (model.py lines 224-231): the leaking
node, the synthetic pipe (`element1`), the synthetic junction
(`element2`) and the emitter coefficient (`attr1`; the `method` field is
always the constant `emitter` on this path). -/
structure LeakRecord where
  nodeName : String
  element1 : String
  element2 : String
  attr1 : EmitterCoeff
  deriving DecidableEq, Repr

/-- The water network model state the leak helpers read and write. -/
structure WN where
  nodes : List WNNode
  links : List WNLink
  expicitLeak : List LeakRecord
  deriving DecidableEq, Repr

/-- The node-name list of the model (shared node namespace). -/
def nodeNames (wn : WN) : List String := wn.nodes.map WNNode.name

/-- The link-name list of the model (independent link namespace). -/
def linkNames (wn : WN) : List String := wn.links.map WNLink.name

/-- Modelled from the spec: `add_junction(name, elevation, coordinates)`
of the base registry — fails with a `DuplicateNameError` when the name
already exists in the node namespace, otherwise appends a fresh junction
(default demand list, no emitter). -/
def addJunction (wn : WN) (name : String) (elevation : ℚ)
    (coord : ℚ × ℚ) : Except String WN :=
  if name ∈ nodeNames wn then
    .error ("DuplicateNameError: " ++ name)
  else
    .ok { wn with nodes := wn.nodes ++
      [{ name := name, elevation := elevation, coordX := coord.1,
         coordY := coord.2, leak := false, leakArea := 0,
         emitter := none, demands := [0] }] }

/-- Modelled from the spec: `add_pipe(name, start, end, ...)` of the base
registry — fails with a `DuplicateNameError` when the name already exists
in the link namespace and with a `ReferenceError` when an endpoint does
not name an existing node. -/
def addPipe (wn : WN) (name start_ end_ : String)
    (diameter length roughness : ℚ) (checkValve : Bool) :
    Except String WN :=
  if name ∈ linkNames wn then
    .error ("DuplicateNameError: " ++ name)
  else if start_ ∈ nodeNames wn ∧ end_ ∈ nodeNames wn then
    .ok { wn with links := wn.links ++
      [{ name := name, startNodeName := start_, endNodeName := end_,
         diameter := diameter, length := length, roughness := roughness,
         minorLoss := 0, checkValve := checkValve }] }
  else .error ("ReferenceError: " ++ name)

/-- `get_node(name)._emitter_coefficient = v` — fails when the node does
not exist. -/
def setEmitter (wn : WN) (name : String) (v : Option EmitterCoeff) :
    Except String WN :=
  if name ∈ nodeNames wn then
    .ok { wn with nodes := wn.nodes.map fun m =>
      if m.name = name then { m with emitter := v } else m }
  else .error ("KeyError: " ++ name)

/-- Modelled from the spec: `remove_link(name, force=True)` — removes the
named link (a missing name is a lookup error). -/
def removeLinkForce (wn : WN) (name : String) : Except String WN :=
  if name ∈ linkNames wn then
    .ok { wn with links := wn.links.filter fun l => l.name ≠ name }
  else .error ("KeyError: " ++ name)

/-- Modelled from the spec: `remove_node(name, force=True)` — removes the
named node and, with `force`, detaches every link that references it. -/
def removeNodeForce (wn : WN) (name : String) : Except String WN :=
  if name ∈ nodeNames wn then
    .ok { wn with
      nodes := wn.nodes.filter fun m => m.name ≠ name
      links := wn.links.filter fun l =>
        l.startNodeName ≠ name ∧ l.endNodeName ≠ name }
  else .error ("KeyError: " ++ name)

/-- The body of `implicitLeakToExplicitEMitter` for one node of the
snapshot (model.py lines 189-233): a leaking node gains a synthetic
junction `name-nn` (one coordinate unit away, same elevation), a
synthetic check-valve pipe `name-elk`, the emitter coefficient on the new
junction, a guard that the leaking node's first base demand does not
exceed 0.001, and a record in `expicit_leak`.  (The `node_name in
self.expicit_leak` check of line 193 compares a string against record
dictionaries and is always false; the external `registry` bookkeeping is
not part of the model state.)  Errors carry the partially mutated
state. -/
def implicitStep (wn : WN) (node : WNNode) : Except (String × WN) WN :=
  if node.leak then
    match addJunction wn (node.name ++ "-nn") node.elevation
        (node.coordX + 1, node.coordY + 1) with
    | .error e => .error (e, wn)
    | .ok wn1 =>
        match addPipe wn1 (node.name ++ "-elk") node.name
            (node.name ++ "-nn") 100 1 1000000 true with
        | .error e => .error (e, wn1)
        | .ok wn2 =>
            match setEmitter wn2 (node.name ++ "-nn")
                (some ⟨node.leakArea⟩) with
            | .error e => .error (e, wn2)
            | .ok wn3 =>
                match node.demands.head? with
                | none =>
                    .error ("IndexError: list index out of range", wn3)
                | some d =>
                    if mkRat 1 1000 < d then
                      .error ("ValueError: leak node has demand: " ++
                        node.name, wn3)
                    else
                      .ok { wn3 with expicitLeak := wn3.expicitLeak ++
                        [{ nodeName := node.name
                           element1 := node.name ++ "-elk"
                           element2 := node.name ++ "-nn"
                           attr1 := ⟨node.leakArea⟩ }] }
  else .ok wn

/-- The node loop of `implicitLeakToExplicitEMitter` over the snapshot of
the node list taken at loop entry. -/
def implicitGo : List WNNode → WN → Except (String × WN) WN
  | [], cur => .ok cur
  | n :: ns, cur =>
      match implicitStep cur n with
      | .error e => .error e
      | .ok cur2 => implicitGo ns cur2

/-- `WaterNetworkModel.implicitLeakToExplicitEMitter` (model.py lines
184-233): guarded by `expicit_leak` being empty, then the node loop. -/
def implicitLeakToExplicitEmitter (wn : WN) : Except (String × WN) WN :=
  if wn.expicitLeak.length > 0 then
    .error ("ValueError: Explicit leak is not reset", wn)
  else implicitGo wn.nodes wn

/-- One iteration of the `resetExplicitLeak` loop (model.py lines
280-286): remove the synthetic pipe, clear the emitter coefficient on the
synthetic junction, remove the synthetic junction. -/
def resetStep (wn : WN) (r : LeakRecord) : Except (String × WN) WN :=
  match removeLinkForce wn r.element1 with
  | .error e => .error (e, wn)
  | .ok wn1 =>
      match setEmitter wn1 r.element2 none with
      | .error e => .error (e, wn1)
      | .ok wn2 =>
          match removeNodeForce wn2 r.element2 with
          | .error e => .error (e, wn2)
          | .ok wn3 => .ok wn3

/-- The record loop of `resetExplicitLeak`, finishing by clearing
`expicit_leak` (model.py line 288). -/
def resetGo : List LeakRecord → WN → Except (String × WN) WN
  | [], cur => .ok { cur with expicitLeak := [] }
  | r :: rs, cur =>
      match resetStep cur r with
      | .error e => .error e
      | .ok cur2 => resetGo rs cur2

/-- `WaterNetworkModel.resetExplicitLeak` (model.py lines 279-288). -/
def resetExplicitLeak (wn : WN) : Except (String × WN) WN :=
  resetGo wn.expicitLeak wn

/-- `implicitLeakToExplicitEMitter` followed by `resetExplicitLeak`; an
exception in the first call propagates (the second call never runs) and
leaves the model in its partially mutated state. -/
def leakRoundTrip (wn : WN) : Except (String × WN) WN :=
  match implicitLeakToExplicitEmitter wn with
  | .ok wn1 => resetExplicitLeak wn1
  | .error e => .error e

/-- The model state after the round trip, successful or not (Python
mutates in place, so the state survives the exception). -/
def leakFinalState (wn : WN) : WN :=
  match leakRoundTrip wn with
  | .ok w => w
  | .error (_, w) => w

/-- The synthetic junction `implicitLeakToExplicitEMitter` leaves behind
for a leaking node, after its emitter coefficient is assigned. -/
def synthNode (n : WNNode) : WNNode :=
  { name := n.name ++ "-nn", elevation := n.elevation,
    coordX := n.coordX + 1, coordY := n.coordY + 1, leak := false,
    leakArea := 0, emitter := some ⟨n.leakArea⟩, demands := [0] }

/-- The synthetic check-valve pipe added for a leaking node. -/
def synthPipe (n : WNNode) : WNLink :=
  { name := n.name ++ "-elk", startNodeName := n.name,
    endNodeName := n.name ++ "-nn", diameter := 100, length := 1,
    roughness := 1000000, minorLoss := 0, checkValve := true }

/-- The `expicit_leak` record added for a leaking node. -/
def synthRecord (n : WNNode) : LeakRecord :=
  { nodeName := n.name, element1 := n.name ++ "-elk",
    element2 := n.name ++ "-nn", attr1 := ⟨n.leakArea⟩ }

/-- The concrete model refuting C10 as stated: junctions A and B leak
with no base demand, and an unrelated junction already carries the name
B-nn that the helper wants for B's synthetic junction. -/
def c10Example : WN :=
  { nodes :=
      [{ name := "A", elevation := 0, coordX := 0, coordY := 0,
         leak := true, leakArea := 1, emitter := none, demands := [0] },
       { name := "B", elevation := 0, coordX := 0, coordY := 0,
         leak := true, leakArea := 1, emitter := none, demands := [0] },
       { name := "B-nn", elevation := 0, coordX := 0, coordY := 0,
         leak := false, leakArea := 0, emitter := none, demands := [0] }]
    links := []
    expicitLeak := [] }

/-- The relative numeric equivalence the round-trip claim allows:
`a` and `b` agree within relative tolerance `tol`. -/
def relativeClose (tol a b : ℚ) : Prop :=
  |a - b| ≤ tol * max |a| |b|

instance (tol a b : ℚ) : Decidable (relativeClose tol a b) := by
  unfold relativeClose
  infer_instance

/-- Whether an `Except` computation succeeded. -/
def exceptIsOk {e a : Type} : Except e a → Bool
  | .ok _ => true
  | .error _ => false

/-- A well-formed one-leak model on which the amended round-trip theorem
is instantiated: a single leaking junction with zero base demand, fresh
synthetic names, no links. -/
def c10Witness : WN :=
  { nodes :=
      [{ name := "A", elevation := 0, coordX := 0, coordY := 0,
         leak := true, leakArea := 1, emitter := none, demands := [0] }]
    links := []
    expicitLeak := [] }

/- ------------------------------------------------------------------ -/
/- Theorems                                                            -/
/- ------------------------------------------------------------------ -/

/-- C7: with `convert_status` true (the default) every stored integer
link-status code `v` is remapped to exactly three states: `v ≤ 2` becomes
`0` (closed), `v = 3` or `v ≥ 5` becomes `1` (open), and `v = 4` becomes
`2` (active); with `convert_status` false the stored values are returned
unchanged. -/
theorem C7_status_remap (v : ℤ) (raw : List ℚ) :
    convertStatusValue (v : ℚ) =
      (if v ≤ 2 then 0 else if v = 4 then 2 else 1) ∧
    statusSeries true raw = raw.map convertStatusValue ∧
    statusSeries false raw = raw := by
  refine ⟨?_, rfl, rfl⟩
  unfold convertStatusValue statusStep1 statusStep2 statusStep3 statusStep4
  rcases (by omega : v ≤ 2 ∨ v = 3 ∨ v = 4 ∨ 5 ≤ v) with h | h | h | h
  · have h2 : (v : ℚ) ≤ 2 := by exact_mod_cast h
    simp [h2, h]
    norm_num
  · subst h
    norm_num
  · subst h
    norm_num
  · have h2 : ¬((v : ℚ) ≤ 2) := by
      push_neg
      have : (2 : ℚ) < (5 : ℚ) := by norm_num
      calc (2 : ℚ) < 5 := this
        _ ≤ (v : ℚ) := by exact_mod_cast h
    have h3 : (v : ℚ) ≠ 3 := by
      intro hc
      have : v = 3 := by exact_mod_cast hc
      omega
    have h5 : (5 : ℚ) ≤ (v : ℚ) := by exact_mod_cast h
    have hv2 : ¬(v ≤ 2) := by omega
    have hv4 : ¬(v = 4) := by omega
    simp [h2, h3, h5, hv2, hv4]

/-- C9: for a non-isolated tank that is present in the result and satisfies
`min_level ≤ max_level` and `0 ≤ max_level`, the tank loop of
`updateWaterNetworkModelWithResult` clamps the level derived from the
result head into `[min_level, max_level]` before assigning `init_level`,
so the update succeeds (the `is less than zero` `ValueError` branch is not
taken) and on return `min_level ≤ init_level ≤ max_level`. -/
theorem C9_tank_clamp (t : TankState) (headOf : String → Option ℚ) (h : ℚ)
    (hiso : t.is_isolated = false)
    (hpresent : headOf t.name = some h)
    (hle : t.min_level ≤ t.max_level)
    (hmax : 0 ≤ t.max_level) :
    ∃ t1, processTank headOf t = .ok t1 ∧
      t.min_level ≤ t1.init_level ∧ t1.init_level ≤ t.max_level := by
  have h0 : (0 : ℚ) ≤ max (max (h - t.elevation) 0) t.min_level :=
    le_trans (le_max_right (h - t.elevation) 0) (le_max_left _ _)
  have hmin : t.min_level ≤ max (max (h - t.elevation) 0) t.min_level :=
    le_max_right _ _
  have hep : processTank headOf t = updateTankFromHead t h := by
    simp [processTank, hiso, hpresent]
  by_cases hcap : max (max (h - t.elevation) 0) t.min_level - t.max_level > 0
  · refine ⟨{ t with init_level := |t.max_level| }, ?_, ?_, ?_⟩
    · rw [hep]
      simp only [updateTankFromHead]
      rw [if_pos hcap, if_neg (not_lt.mpr hmax)]
    · simp only [abs_of_nonneg hmax]
      exact hle
    · simp only [abs_of_nonneg hmax]
      exact le_refl _
  · refine ⟨{ t with
        init_level := |max (max (h - t.elevation) 0) t.min_level| }, ?_, ?_, ?_⟩
    · rw [hep]
      simp only [updateTankFromHead]
      rw [if_neg hcap, if_neg (not_lt.mpr h0)]
    · simp only [abs_of_nonneg h0]
      exact hmin
    · simp only [abs_of_nonneg h0]
      linarith [not_lt.mp hcap]

/-- Looking a name up after `patAppend`: the named entry gains the new
values, every other entry is untouched. -/
theorem lookup_patAppend (d : List (String × List ℚ)) (name n : String)
    (qs : List ℚ) :
    List.lookup n (patAppend d name qs) =
      if n = name then some ((List.lookup n d).getD [] ++ qs)
      else List.lookup n d := by
  induction d with
  | nil =>
      by_cases h : n = name
      · subst h
        simp [patAppend, List.lookup]
      · have hb : (n == name) = false := beq_eq_false_iff_ne.mpr h
        simp [patAppend, List.lookup, hb, h]
  | cons hd tl ih =>
      obtain ⟨k, vs⟩ := hd
      by_cases hn : n = k
      · subst hn
        by_cases hk : n = name
        · subst hk
          simp [patAppend, List.lookup]
        · have hb : (n == name) = false := beq_eq_false_iff_ne.mpr hk
          simp [patAppend, List.lookup, hb, hk]
      · have hb : (n == k) = false := beq_eq_false_iff_ne.mpr hn
        by_cases hk : k = name
        · subst hk
          simp [patAppend, List.lookup, hb, hn]
        · simp [patAppend, hk, List.lookup, hb, ih]

/-- Membership in the key list after `patAppend`. -/
theorem mem_keys_patAppend (d : List (String × List ℚ)) (name n : String)
    (qs : List ℚ) :
    n ∈ (patAppend d name qs).map Prod.fst ↔
      n ∈ d.map Prod.fst ∨ n = name := by
  induction d with
  | nil => simp [patAppend]
  | cons hd tl ih =>
      obtain ⟨k, vs⟩ := hd
      by_cases hk : k = name
      · subst hk
        simp [patAppend]
        tauto
      · simp [patAppend, hk, ih]
        tauto

/-- `patAppend` keeps the key list duplicate-free. -/
theorem nodup_keys_patAppend (d : List (String × List ℚ)) (name : String)
    (qs : List ℚ) (h : (d.map Prod.fst).Nodup) :
    ((patAppend d name qs).map Prod.fst).Nodup := by
  induction d with
  | nil => simp [patAppend]
  | cons hd tl ih =>
      obtain ⟨k, vs⟩ := hd
      simp only [List.map_cons, List.nodup_cons] at h
      by_cases hk : k = name
      · subst hk
        simpa [patAppend, List.nodup_cons] using h
      · simp only [patAppend, hk, if_false, List.map_cons, List.nodup_cons]
        refine ⟨?_, ih h.2⟩
        rw [mem_keys_patAppend]
        push_neg
        exact ⟨h.1, hk⟩

/-- Unfolding lemma for `readPatternsAux` on a cons cell. -/
theorem readPatternsAux_cons (d : List (String × List ℚ)) (l : String)
    (rest : List String) :
    readPatternsAux d (l :: rest) =
      match fields (stripComment l) with
      | [] => readPatternsAux d rest
      | name :: vals =>
          (parseFloats vals).bind fun qs =>
            readPatternsAux (patAppend d name qs) rest := rfl

/-- The dictionary `InpFile._read_patterns` builds, entry by entry: after
a successful read, the entry of a name `n` holds the concatenation, in
file order, of the values of all lines that carry leading token `n`,
appended to whatever the accumulator already held for `n`. -/
theorem readPatternsAux_lookup (n : String) (ls : List String) :
    ∀ (d d' : List (String × List ℚ)),
      readPatternsAux d ls = .ok d' →
      List.lookup n d' =
        if (List.lookup n d).isSome ∨ namesPattern n ls = true
        then some ((List.lookup n d).getD [] ++ specMultipliers ls n)
        else none := by
  induction ls with
  | nil =>
      intro d d' hok
      simp only [readPatternsAux, Except.ok.injEq] at hok
      subst hok
      rcases h : List.lookup n d with _ | vs <;>
        simp [h, namesPattern, specMultipliers]
  | cons l rest ih =>
      intro d d' hok
      rcases hf : fields (stripComment l) with _ | ⟨name, vals⟩
      · rw [readPatternsAux_cons] at hok
        simp only [hf] at hok
        have hspec : specMultipliers (l :: rest) n = specMultipliers rest n := by
          simp [specMultipliers, List.filterMap_cons, hf]
        have hname : namesPattern n (l :: rest) = namesPattern n rest := by
          simp [namesPattern, patternLineName, hf]
        rw [hspec, hname]
        exact ih d d' hok
      · rw [readPatternsAux_cons] at hok
        simp only [hf] at hok
        rcases hpf : parseFloats vals with e | qs
        · rw [hpf] at hok
          simp [Except.bind] at hok
        · rw [hpf] at hok
          have hok2 : readPatternsAux (patAppend d name qs) rest = .ok d' := by
            simpa [Except.bind] using hok
          have hla := lookup_patAppend d name n qs
          have hspec : specMultipliers (l :: rest) n =
              if name = n then qs ++ specMultipliers rest n
              else specMultipliers rest n := by
            by_cases hnn : name = n
            · simp [specMultipliers, List.filterMap_cons, hf, hnn, hpf,
                Except.toOption]
            · simp [specMultipliers, List.filterMap_cons, hf, hnn]
          have hnm : namesPattern n (l :: rest) =
              (decide (name = n) || namesPattern n rest) := by
            simp [namesPattern, patternLineName, hf, List.any_cons,
              @eq_comm String n name]
          rw [ih (patAppend d name qs) d' hok2, hla]
          by_cases hnn : n = name
          · subst hnn
            simp only [if_pos rfl, Option.isSome_some, true_or, if_true,
              Option.getD_some]
            rw [hspec, hnm]
            simp [List.append_assoc]
          · rw [if_neg hnn, hspec, hnm]
            have hne : ¬(name = n) := fun hc => hnn hc.symm
            have hd : decide (name = n) = false := by simp [hne]
            rw [hd, if_neg hne]
            simp only [Bool.false_or]

/-- A successful `_read_patterns` pass keeps the key list of the pattern
dictionary duplicate-free (one `Pattern` per name). -/
theorem readPatternsAux_keys_nodup (ls : List String) :
    ∀ (d d' : List (String × List ℚ)),
      (d.map Prod.fst).Nodup →
      readPatternsAux d ls = .ok d' →
      (d'.map Prod.fst).Nodup := by
  induction ls with
  | nil =>
      intro d d' hnd hok
      simp only [readPatternsAux, Except.ok.injEq] at hok
      subst hok
      exact hnd
  | cons l rest ih =>
      intro d d' hnd hok
      rcases hf : fields (stripComment l) with _ | ⟨name, vals⟩
      · rw [readPatternsAux_cons] at hok
        simp only [hf] at hok
        exact ih d d' hnd hok
      · rw [readPatternsAux_cons] at hok
        simp only [hf] at hok
        rcases hpf : parseFloats vals with e | qs
        · rw [hpf] at hok
          simp [Except.bind] at hok
        · rw [hpf] at hok
          have hok2 : readPatternsAux (patAppend d name qs) rest = .ok d' := by
            simpa [Except.bind] using hok
          exact ih _ _ (nodup_keys_patAppend d name qs hnd) hok2

/-- A name looked up successfully is among the keys. -/
theorem mem_keys_of_lookup {α : Type} (d : List (String × α)) (n : String)
    (vs : α) (h : List.lookup n d = some vs) :
    n ∈ d.map Prod.fst := by
  induction d with
  | nil => simp [List.lookup] at h
  | cons hd tl ih =>
      obtain ⟨k, ws⟩ := hd
      by_cases hk : n = k
      · simp [hk]
      · have hb : (n == k) = false := beq_eq_false_iff_ne.mpr hk
        simp only [List.lookup, hb] at h
        simp only [List.map_cons, List.mem_cons]
        exact Or.inr (ih h)

/-- C6: when a pattern's multipliers are split across several `[PATTERNS]`
data lines sharing the same leading name token, a successful read
produces a single `Pattern` for that name (the name occurs exactly once
among the dictionary keys) whose multiplier sequence is the concatenation
of the values of all its lines in file order. -/
theorem C6_pattern_multiline (ls : List String)
    (d : List (String × List ℚ)) (n : String)
    (hok : readPatterns ls = .ok d)
    (hnamed : namesPattern n ls = true) :
    List.lookup n d = some (specMultipliers ls n) ∧
    (d.map Prod.fst).count n = 1 := by
  have hl := readPatternsAux_lookup n ls [] d hok
  have hcond : (List.lookup n ([] : List (String × List ℚ))).isSome = true ∨
      namesPattern n ls = true := Or.inr hnamed
  rw [if_pos hcond] at hl
  simp only [List.lookup, Option.getD_none, List.nil_append] at hl
  refine ⟨hl, ?_⟩
  have hnd : (d.map Prod.fst).Nodup :=
    readPatternsAux_keys_nodup ls [] d (by simp) hok
  exact List.count_eq_one_of_mem hnd (mem_keys_of_lookup d n _ hl)

/-- Witness for C6: 8 multipliers split across 3 lines that all carry the
leading token P1 yield a single pattern with all 8 values in order. -/
theorem C6_pattern_multiline_witness :
    List.lookup "P1"
        [("P1", [(1 : ℚ), 2, 3, 4, 5, 6, 7, 8])] =
      some (specMultipliers ["P1 1 2 3", "P1 4 5 6", "P1 7 8"] "P1") ∧
    ([("P1", [(1 : ℚ), 2, 3, 4, 5, 6, 7, 8])].map Prod.fst).count "P1" = 1 :=
  C6_pattern_multiline ["P1 1 2 3", "P1 4 5 6", "P1 7 8"]
    [("P1", [1, 2, 3, 4, 5, 6, 7, 8])] "P1" (by decide) (by decide)

/-- C1 (failing part, evaluated on the code): the pattern writer formats
every multiplier with fixed 6-decimal-place formatting, so the valid
model holding the single pattern P1 with multiplier `1e-8` is written as
the line `P1 0.000000`, and reading that text back yields the multiplier
`0`, which is not numerically equivalent to `1e-8` within relative
tolerance `1e-6` (the relative error is 1). -/
theorem C1_pattern_roundtrip_loses_small_multipliers :
    writePatterns [("P1", [mkRat 1 100000000])] = ["P1 0.000000"] ∧
    readPatterns (writePatterns [("P1", [mkRat 1 100000000])]) =
      .ok [("P1", [0])] ∧
    ¬relativeClose (mkRat 1 1000000) (mkRat 1 100000000) 0 := by
  refine ⟨by decide, by decide, ?_⟩
  simp only [relativeClose, Rat.mkRat_eq_div]
  push_cast
  rw [sub_zero, abs_zero]
  rw [show |(1 : ℚ) / 100000000| = 1 / 100000000 from abs_of_pos (by norm_num)]
  rw [max_eq_left (by norm_num : (0 : ℚ) ≤ 1 / 100000000)]
  norm_num

/-- A name among the keys of an association list is found by `lookup`. -/
theorem lookup_isSome_of_mem_keys {α : Type} (d : List (String × α))
    (n : String) (h : n ∈ d.map Prod.fst) :
    ∃ vs, List.lookup n d = some vs := by
  induction d with
  | nil => simp at h
  | cons hd tl ih =>
      obtain ⟨k, vs⟩ := hd
      by_cases hk : n = k
      · subst hk
        exact ⟨vs, by simp [List.lookup]⟩
      · have hb : (n == k) = false := beq_eq_false_iff_ne.mpr hk
        have h2 : n ∈ tl.map Prod.fst := by
          simp only [List.map_cons, List.mem_cons] at h
          rcases h with h | h
          · exact absurd h hk
          · exact h
        obtain ⟨ws, hws⟩ := ih h2
        exact ⟨ws, by simp [List.lookup, hb, hws]⟩

/-- Looking a junction up after `setDemands`. -/
theorem lookup_setDemands (st : List (String × List DemandEntry))
    (name j : String) (es : List DemandEntry) :
    List.lookup j (setDemands st name es) =
      (List.lookup j st).map fun vs => if j = name then es else vs := by
  induction st with
  | nil => simp [setDemands, List.lookup]
  | cons hd tl ih =>
      obtain ⟨k, vs⟩ := hd
      by_cases hj : j = k
      · subst hj
        by_cases hk : j = name
        · subst hk
          simp [setDemands, List.lookup]
        · simp [setDemands, List.lookup, hk]
      · have hb : (j == k) = false := beq_eq_false_iff_ne.mpr hj
        by_cases hk : k = name
        · subst hk
          simp only [setDemands, List.map_cons, List.lookup, hb]
          exact ih
        · simp only [setDemands, List.map_cons, List.lookup, hb]
          exact ih

/-- Looking a junction up after `appendEntry`. -/
theorem lookup_appendEntry (st : List (String × List DemandEntry))
    (name j : String) (e : DemandEntry) :
    List.lookup j (appendEntry st name e) =
      (List.lookup j st).map fun vs => if j = name then vs ++ [e] else vs := by
  induction st with
  | nil => simp [appendEntry, List.lookup]
  | cons hd tl ih =>
      obtain ⟨k, vs⟩ := hd
      by_cases hj : j = k
      · subst hj
        by_cases hk : j = name
        · subst hk
          simp [appendEntry, List.lookup]
        · simp [appendEntry, List.lookup, hk]
      · have hb : (j == k) = false := beq_eq_false_iff_ne.mpr hj
        by_cases hk : k = name
        · subst hk
          simp only [appendEntry, List.map_cons, List.lookup, hb]
          exact ih
        · simp only [appendEntry, List.map_cons, List.lookup, hb]
          exact ih

/-- Unfolding lemma for `readDemandsAux` on a cons cell. -/
theorem readDemandsAux_cons (u : FlowUnits) (patterns : List String)
    (st : List (String × List DemandEntry)) (readSet : List String)
    (l : String) (rest : List String) :
    readDemandsAux u patterns st readSet (l :: rest) =
      match wsSplit [] ((splitOnChar ';' l.toList).headD []) with
      | [] => readDemandsAux u patterns st readSet rest
      | name :: _ =>
          if name ∈ st.map Prod.fst then
            match demandEntryOf u patterns l with
            | .error e => .error e
            | .ok entry =>
                if name ∈ readSet then
                  readDemandsAux u patterns (appendEntry st name entry)
                    readSet rest
                else
                  readDemandsAux u patterns (setDemands st name [entry])
                    (name :: readSet) rest
          else .error "KeyError: node not found" := rfl

/-- The demand bookkeeping of `InpFile._read_demands`, entry by entry:
for a junction already in the `has_been_read` set the section appends its
contributed entries to whatever the junction already had; for a junction
not yet in the set, the section replaces the junction's entries with
exactly its contributed entries (if any line names it at all). -/
theorem readDemandsAux_lookup (u : FlowUnits) (patterns : List String)
    (j : String) (ls : List String) :
    ∀ (st : List (String × List DemandEntry)) (readSet : List String)
      (st' : List (String × List DemandEntry)),
      readDemandsAux u patterns st readSet ls = .ok st' →
      (j ∈ readSet →
        List.lookup j st' = (List.lookup j st).map
          (fun es => es ++ specDemandEntries u patterns ls j)) ∧
      (j ∉ readSet →
        List.lookup j st' =
          if namesDemand j ls then
            some (specDemandEntries u patterns ls j)
          else List.lookup j st) := by
  induction ls with
  | nil =>
      intro st readSet st' hok
      simp only [readDemandsAux, Except.ok.injEq] at hok
      subst hok
      constructor
      · intro _
        cases hls : List.lookup j st <;> simp [hls, specDemandEntries]
      · intro _
        simp [namesDemand]
  | cons l rest ih =>
      intro st readSet st' hok
      rw [readDemandsAux_cons] at hok
      rcases htok : wsSplit [] ((splitOnChar ';' l.toList).headD [])
        with _ | ⟨name, more⟩
      · simp only [htok] at hok
        have hdn : demandLineName l = none := by
          unfold demandLineName
          rw [htok]
          rfl
        have hspec : specDemandEntries u patterns (l :: rest) j =
            specDemandEntries u patterns rest j := by
          simp [specDemandEntries, List.filterMap_cons, hdn]
        have hnm : namesDemand j (l :: rest) = namesDemand j rest := by
          simp [namesDemand, List.any_cons, hdn]
        rw [hspec, hnm]
        exact ih st readSet st' hok
      · simp only [htok] at hok
        by_cases hkeys : name ∈ st.map Prod.fst
        · rw [if_pos hkeys] at hok
          rcases hent : demandEntryOf u patterns l with e | entry
          · simp only [hent] at hok
            cases hok
          · simp only [hent] at hok
            have hdn : demandLineName l = some name := by
              unfold demandLineName
              rw [htok]
              rfl
            have hspec : specDemandEntries u patterns (l :: rest) j =
                if name = j then
                  entry :: specDemandEntries u patterns rest j
                else specDemandEntries u patterns rest j := by
              by_cases hnj : name = j
              · simp [specDemandEntries, List.filterMap_cons, hdn, hnj,
                  hent, Except.toOption]
              · simp [specDemandEntries, List.filterMap_cons, hdn, hnj]
            have hnm : namesDemand j (l :: rest) =
                (decide (name = j) || namesDemand j rest) := by
              simp [namesDemand, List.any_cons, hdn,
                @eq_comm String j name]
            by_cases hmem : name ∈ readSet
            · rw [if_pos hmem] at hok
              have IH := ih (appendEntry st name entry) readSet st' hok
              constructor
              · intro hjR
                have h1 := IH.1 hjR
                rw [lookup_appendEntry] at h1
                by_cases hjn : j = name
                · subst hjn
                  rw [hspec, if_pos rfl, h1]
                  cases List.lookup j st with
                  | none => rfl
                  | some vs =>
                      simp only [Option.map_some', if_pos rfl]
                      simp [List.append_assoc]
                · have hnj : ¬(name = j) := fun hc => hjn hc.symm
                  rw [hspec, if_neg hnj, h1]
                  cases List.lookup j st with
                  | none => rfl
                  | some vs => simp only [Option.map_some', if_neg hjn]
              · intro hjR
                have hjn : ¬(j = name) := fun hc => hjR (hc ▸ hmem)
                have hnj : ¬(name = j) := fun hc => hjn hc.symm
                have h2 := IH.2 hjR
                rw [lookup_appendEntry] at h2
                rw [hspec, if_neg hnj, hnm]
                have hd : decide (name = j) = false := by simp [hnj]
                rw [hd, Bool.false_or]
                rw [h2]
                by_cases hnr : namesDemand j rest = true
                · rw [if_pos hnr, if_pos hnr]
                · rw [if_neg hnr, if_neg hnr]
                  cases List.lookup j st with
                  | none => rfl
                  | some vs => simp only [Option.map_some', if_neg hjn]
            · rw [if_neg hmem] at hok
              have IH := ih (setDemands st name [entry]) (name :: readSet)
                st' hok
              constructor
              · intro hjR
                have hjn : ¬(j = name) := fun hc => hmem (hc ▸ hjR)
                have hnj : ¬(name = j) := fun hc => hjn hc.symm
                have h1 := IH.1 (List.mem_cons_of_mem _ hjR)
                rw [lookup_setDemands] at h1
                rw [hspec, if_neg hnj, h1]
                cases List.lookup j st with
                | none => rfl
                | some vs => simp only [Option.map_some', if_neg hjn]
              · intro hjR
                by_cases hjn : j = name
                · subst hjn
                  have h1 := IH.1 (List.mem_cons_self j readSet)
                  rw [lookup_setDemands] at h1
                  rw [hspec, if_pos rfl, hnm]
                  have hd : decide (j = j) = true := by simp
                  rw [hd, Bool.true_or, if_pos rfl]
                  obtain ⟨vs, hvs⟩ := lookup_isSome_of_mem_keys st _ hkeys
                  rw [hvs] at h1
                  simp only [Option.map_some', if_pos rfl] at h1
                  rw [h1]
                  rfl
                · have hnj : ¬(name = j) := fun hc => hjn hc.symm
                  have h2 := IH.2 (by
                    intro hc
                    rcases List.mem_cons.mp hc with hc1 | hc2
                    · exact hjn hc1
                    · exact hjR hc2)
                  rw [lookup_setDemands] at h2
                  rw [hspec, if_neg hnj, hnm]
                  have hd : decide (name = j) = false := by simp [hnj]
                  rw [hd, Bool.false_or]
                  rw [h2]
                  by_cases hnr : namesDemand j rest = true
                  · rw [if_pos hnr, if_pos hnr]
                  · rw [if_neg hnr, if_neg hnr]
                    cases List.lookup j st with
                    | none => rfl
                    | some vs => simp only [Option.map_some', if_neg hjn]
        · rw [if_neg hkeys] at hok
          cases hok

/-- In a successful `_read_demands` pass, every data line that names a
junction parsed successfully into a demand entry. -/
theorem readDemandsAux_parses (u : FlowUnits) (patterns : List String)
    (ls : List String) :
    ∀ (st : List (String × List DemandEntry)) (readSet : List String)
      (st' : List (String × List DemandEntry)),
      readDemandsAux u patterns st readSet ls = .ok st' →
      ∀ l0 ∈ ls, ∀ nm, demandLineName l0 = some nm →
        ∃ e, demandEntryOf u patterns l0 = .ok e := by
  induction ls with
  | nil =>
      intro st readSet st' hok l0 hl0
      simp at hl0
  | cons l rest ih =>
      intro st readSet st' hok l0 hl0 nm hnm
      rw [readDemandsAux_cons] at hok
      rcases htok : wsSplit [] ((splitOnChar ';' l.toList).headD [])
        with _ | ⟨name, more⟩
      · simp only [htok] at hok
        rcases List.mem_cons.mp hl0 with rfl | hmem
        · have hdn : demandLineName l0 = none := by
            unfold demandLineName
            rw [htok]
            rfl
          rw [hdn] at hnm
          cases hnm
        · exact ih st readSet st' hok l0 hmem nm hnm
      · simp only [htok] at hok
        by_cases hkeys : name ∈ st.map Prod.fst
        · rw [if_pos hkeys] at hok
          rcases hent : demandEntryOf u patterns l with e | entry
          · simp only [hent] at hok
            cases hok
          · simp only [hent] at hok
            rcases List.mem_cons.mp hl0 with rfl | hmem
            · exact ⟨entry, hent⟩
            · by_cases hmemR : name ∈ readSet
              · rw [if_pos hmemR] at hok
                exact ih _ _ _ hok l0 hmem nm hnm
              · rw [if_neg hmemR] at hok
                exact ih _ _ _ hok l0 hmem nm hnm
        · rw [if_neg hkeys] at hok
          cases hok

/-- When every line naming junction `j` parses, the section contributes
exactly one demand entry per line naming `j`. -/
theorem specDemandEntries_length (u : FlowUnits) (patterns : List String)
    (j : String) (ls : List String)
    (h : ∀ l0 ∈ ls, demandLineName l0 = some j →
      ∃ e, demandEntryOf u patterns l0 = .ok e) :
    (specDemandEntries u patterns ls j).length =
      ls.countP (fun l0 => decide (demandLineName l0 = some j)) := by
  induction ls with
  | nil => simp [specDemandEntries]
  | cons l rest ih =>
      have hrest := fun l0 hl0 => h l0 (List.mem_cons_of_mem _ hl0)
      by_cases hdl : demandLineName l = some j
      · obtain ⟨e, he⟩ := h l (List.mem_cons_self _ _) hdl
        have hstep : specDemandEntries u patterns (l :: rest) j =
            e :: specDemandEntries u patterns rest j := by
          simp [specDemandEntries, List.filterMap_cons, hdl, he,
            Except.toOption]
        rw [hstep, List.length_cons, List.countP_cons, ih hrest]
        simp [hdl]
      · have hstep : specDemandEntries u patterns (l :: rest) j =
            specDemandEntries u patterns rest j := by
          simp [specDemandEntries, List.filterMap_cons, hdl]
        rw [hstep, List.countP_cons, ih hrest]
        simp [hdl]

/-- C3: within one read of a `[DEMANDS]` section, the first data line
naming a junction replaces all of its previous demand entries (including
the `[JUNCTIONS]` base demand) with its own entry, and every later line
naming the same junction appends; so after a successful read a junction
named by the section holds exactly the entries contributed by its lines,
in file order — `k` naming lines yield exactly `k` entries. -/
theorem C3_demands_override_then_append (u : FlowUnits)
    (patterns : List String) (ls : List String)
    (st st' : List (String × List DemandEntry)) (j : String)
    (hok : readDemands u patterns st ls = .ok st')
    (hnamed : namesDemand j ls = true) :
    List.lookup j st' = some (specDemandEntries u patterns ls j) ∧
    (specDemandEntries u patterns ls j).length =
      ls.countP (fun l0 => decide (demandLineName l0 = some j)) := by
  constructor
  · have hinv := (readDemandsAux_lookup u patterns j ls st [] st' hok).2
      (by simp)
    simpa [hnamed] using hinv
  · exact specDemandEntries_length u patterns j ls
      (fun l0 hl0 hd =>
        readDemandsAux_parses u patterns ls st [] st' hok l0 hl0 j hd)

/-- Witness for C3: junction J1 starts with one base demand entry; the
section names it twice, so after the read it holds exactly the two
entries of the section, in file order, and the base entry is gone. -/
theorem C3_demands_witness :
    List.lookup "J1"
        [("J1",
          [{ base := mkRat 5 1000, pattern := none, category := none },
           { base := mkRat 6 1000, pattern := some "PAT1",
             category := some "cat2" }])] =
      some (specDemandEntries .SI ["PAT1"] ["J1 5", "J1 6 PAT1 ;cat2"]
        "J1") ∧
    (specDemandEntries .SI ["PAT1"] ["J1 5", "J1 6 PAT1 ;cat2"]
        "J1").length =
      (["J1 5", "J1 6 PAT1 ;cat2"] : List String).countP
        (fun l0 => decide (demandLineName l0 = some "J1")) :=
  C3_demands_override_then_append .SI ["PAT1"]
    ["J1 5", "J1 6 PAT1 ;cat2"]
    [("J1", [{ base := 1, pattern := none, category := none }])]
    [("J1",
      [{ base := mkRat 5 1000, pattern := none, category := none },
       { base := mkRat 6 1000, pattern := some "PAT1",
         category := some "cat2" }])]
    "J1" (by decide) (by decide)

/-- Unfolding lemma for `readPipesAux` on a cons cell. -/
theorem readPipesAux_cons (u : FlowUnits) (carry : Option PipeCarry)
    (l : String) (rest : List String) :
    readPipesAux u carry (l :: rest) =
      if (fields (stripComment l)).isEmpty then readPipesAux u carry rest
      else
        (pipeCarryStep carry (fields (stripComment l))).bind fun carry2 =>
          (pipeAdd u carry2 (fields (stripComment l))).bind fun rec0 =>
            (readPipesAux u carry2 rest).bind fun others =>
              .ok (rec0 :: others) := rfl

/-- C5 counterexample: a `[PIPES]` record with 9 whitespace-separated
fields is not a fatal parse error.  The section below reads without any
error, and the 9-field record P2 is silently added as a pipe whose minor
loss (9), status (Open) and check-valve flag (false) are carried over
from the preceding 8-field record P1 — P2's own trailing fields `7 7 7`
are ignored. -/
theorem C5_pipes_counterexample :
    readPipes .SI ["P1 A B 1 1 100 9 OPEN", "P2 A B 2 2 100 7 7 7"] =
      .ok
        [{ name := "P1", startNodeName := "A", endNodeName := "B",
           length := 1, diameter := mkRat 1 1000, roughness := 100,
           minorLoss := 9, initialStatus := .Open, checkValve := false },
         { name := "P2", startNodeName := "A", endNodeName := "B",
           length := 2, diameter := mkRat 1 500, roughness := 100,
           minorLoss := 9, initialStatus := .Open,
           checkValve := false }] := by
  decide

/-- C5 (amended): for a non-blank `[PIPES]` record whose field count is
not 6, 7 or 8 the read is not a structural parse error naming file and
line.  A record with fewer than 6 fields aborts the read with the
unhandled exception the left-to-right `add_pipe` argument evaluation
hits first: an `IndexError` when the missing index is reached (fewer
than 4 fields; 4 fields with a numeric field 3; 5 fields with numeric
fields 3 and 4), or a `ValueError` from `float()` on the first
unparseable of fields 3 and 4.  A record with 9 or more fields leaves
the optional locals untouched; if no earlier record assigned them the
read aborts with an unhandled `NameError` (or a `ValueError` from an
unparseable numeric field), and otherwise a pipe IS silently added whose
minor loss, status and check-valve flag come from the most recent 6-, 7-
or 8-field record. -/
theorem C5_pipes_amended (u : FlowUnits) (carry : Option PipeCarry)
    (l : String) (rest : List String)
    (hne : ¬(fields (stripComment l)).isEmpty = true) :
    ((fields (stripComment l)).length < 4 →
      readPipesAux u carry (l :: rest) =
        .error "IndexError: list index out of range") ∧
    ((fields (stripComment l)).length = 4 ∨
        (fields (stripComment l)).length = 5 →
      ∀ e3, parseRatE ((fields (stripComment l)).getD 3 "") = .error e3 →
        readPipesAux u carry (l :: rest) = .error e3) ∧
    ((fields (stripComment l)).length = 4 →
      ∀ v3, parseRatE ((fields (stripComment l)).getD 3 "") = .ok v3 →
        readPipesAux u carry (l :: rest) =
          .error "IndexError: list index out of range") ∧
    ((fields (stripComment l)).length = 5 →
      ∀ v3 e4, parseRatE ((fields (stripComment l)).getD 3 "") = .ok v3 →
        parseRatE ((fields (stripComment l)).getD 4 "") = .error e4 →
        readPipesAux u carry (l :: rest) = .error e4) ∧
    ((fields (stripComment l)).length = 5 →
      ∀ v3 v4, parseRatE ((fields (stripComment l)).getD 3 "") = .ok v3 →
        parseRatE ((fields (stripComment l)).getD 4 "") = .ok v4 →
        readPipesAux u carry (l :: rest) =
          .error "IndexError: list index out of range") ∧
    (9 ≤ (fields (stripComment l)).length →
      pipeCarryStep carry (fields (stripComment l)) = .ok carry ∧
      (carry = none →
        ∃ e, readPipesAux u carry (l :: rest) = .error e) ∧
      (∀ c, carry = some c →
        ∀ len dia rough,
          parseRatE ((fields (stripComment l)).getD 3 "") = .ok len →
          parseRatE ((fields (stripComment l)).getD 4 "") = .ok dia →
          parseRatE ((fields (stripComment l)).getD 5 "") = .ok rough →
          readPipesAux u carry (l :: rest) =
            (readPipesAux u carry rest).map
              (fun ps =>
                { name := (fields (stripComment l)).getD 0 ""
                  startNodeName := (fields (stripComment l)).getD 1 ""
                  endNodeName := (fields (stripComment l)).getD 2 ""
                  length := toSi u len .Length
                  diameter := toSi u dia .PipeDiameter
                  roughness := rough
                  minorLoss := c.minorLoss
                  initialStatus := c.status
                  checkValve := c.checkValve } :: ps))) := by
  refine ⟨?_, ?_, ?_, ?_, ?_, ?_⟩
  · intro hlt
    have h8 : ¬((fields (stripComment l)).length = 8) := by omega
    have h7 : ¬((fields (stripComment l)).length = 7) := by omega
    have h6 : ¬((fields (stripComment l)).length = 6) := by omega
    have hstep : pipeCarryStep carry (fields (stripComment l)) =
        .ok carry := by
      unfold pipeCarryStep
      rw [if_neg h8, if_neg h7, if_neg h6]
    have hadd : pipeAdd u carry (fields (stripComment l)) =
        .error "IndexError: list index out of range" := by
      unfold pipeAdd
      rw [if_pos hlt]
    rw [readPipesAux_cons, if_neg hne, hstep]
    simp [Except.bind, hadd]
  · intro h45 e3 h3
    have h8 : ¬((fields (stripComment l)).length = 8) := by
      rcases h45 with h | h <;> omega
    have h7 : ¬((fields (stripComment l)).length = 7) := by
      rcases h45 with h | h <;> omega
    have h6 : ¬((fields (stripComment l)).length = 6) := by
      rcases h45 with h | h <;> omega
    have hlt4 : ¬((fields (stripComment l)).length < 4) := by
      rcases h45 with h | h <;> omega
    have hstep : pipeCarryStep carry (fields (stripComment l)) =
        .ok carry := by
      unfold pipeCarryStep
      rw [if_neg h8, if_neg h7, if_neg h6]
    have hadd : pipeAdd u carry (fields (stripComment l)) =
        .error e3 := by
      unfold pipeAdd
      rw [if_neg hlt4, h3]
      rfl
    rw [readPipesAux_cons, if_neg hne, hstep]
    simp [Except.bind, hadd]
  · intro h4L v3 h3
    have h8 : ¬((fields (stripComment l)).length = 8) := by omega
    have h7 : ¬((fields (stripComment l)).length = 7) := by omega
    have h6 : ¬((fields (stripComment l)).length = 6) := by omega
    have hlt4 : ¬((fields (stripComment l)).length < 4) := by omega
    have hlt5 : (fields (stripComment l)).length < 5 := by omega
    have hstep : pipeCarryStep carry (fields (stripComment l)) =
        .ok carry := by
      unfold pipeCarryStep
      rw [if_neg h8, if_neg h7, if_neg h6]
    have hadd : pipeAdd u carry (fields (stripComment l)) =
        .error "IndexError: list index out of range" := by
      unfold pipeAdd
      rw [if_neg hlt4, h3]
      simp only [Except.bind]
      rw [if_pos hlt5]
    rw [readPipesAux_cons, if_neg hne, hstep]
    simp [Except.bind, hadd]
  · intro h5L v3 e4 h3 h4
    have h8 : ¬((fields (stripComment l)).length = 8) := by omega
    have h7 : ¬((fields (stripComment l)).length = 7) := by omega
    have h6 : ¬((fields (stripComment l)).length = 6) := by omega
    have hlt4 : ¬((fields (stripComment l)).length < 4) := by omega
    have hlt5 : ¬((fields (stripComment l)).length < 5) := by omega
    have hstep : pipeCarryStep carry (fields (stripComment l)) =
        .ok carry := by
      unfold pipeCarryStep
      rw [if_neg h8, if_neg h7, if_neg h6]
    have hadd : pipeAdd u carry (fields (stripComment l)) =
        .error e4 := by
      unfold pipeAdd
      rw [if_neg hlt4, h3]
      simp only [Except.bind]
      rw [if_neg hlt5, h4]
    rw [readPipesAux_cons, if_neg hne, hstep]
    simp [Except.bind, hadd]
  · intro h5L v3 v4 h3 h4
    have h8 : ¬((fields (stripComment l)).length = 8) := by omega
    have h7 : ¬((fields (stripComment l)).length = 7) := by omega
    have h6 : ¬((fields (stripComment l)).length = 6) := by omega
    have hlt4 : ¬((fields (stripComment l)).length < 4) := by omega
    have hlt5 : ¬((fields (stripComment l)).length < 5) := by omega
    have hlt6 : (fields (stripComment l)).length < 6 := by omega
    have hstep : pipeCarryStep carry (fields (stripComment l)) =
        .ok carry := by
      unfold pipeCarryStep
      rw [if_neg h8, if_neg h7, if_neg h6]
    have hadd : pipeAdd u carry (fields (stripComment l)) =
        .error "IndexError: list index out of range" := by
      unfold pipeAdd
      rw [if_neg hlt4, h3]
      simp only [Except.bind]
      rw [if_neg hlt5, h4]
      simp only [Except.bind]
      rw [if_pos hlt6]
    rw [readPipesAux_cons, if_neg hne, hstep]
    simp [Except.bind, hadd]
  · intro hge
    have h8 : ¬((fields (stripComment l)).length = 8) := by omega
    have h7 : ¬((fields (stripComment l)).length = 7) := by omega
    have h6 : ¬((fields (stripComment l)).length = 6) := by omega
    have hlt4 : ¬((fields (stripComment l)).length < 4) := by omega
    have hlt5 : ¬((fields (stripComment l)).length < 5) := by omega
    have hlt6 : ¬((fields (stripComment l)).length < 6) := by omega
    have hstep : pipeCarryStep carry (fields (stripComment l)) =
        .ok carry := by
      unfold pipeCarryStep
      rw [if_neg h8, if_neg h7, if_neg h6]
    refine ⟨hstep, ?_, ?_⟩
    · intro hc
      subst hc
      have hbase : readPipesAux u none (l :: rest) =
          (pipeAdd u none (fields (stripComment l))).bind fun rec0 =>
            (readPipesAux u none rest).bind fun others =>
              .ok (rec0 :: others) := by
        rw [readPipesAux_cons, if_neg hne, hstep]
        rfl
      rcases h3 : parseRatE ((fields (stripComment l)).getD 3 "")
        with e3 | v3
      · refine ⟨e3, ?_⟩
        rw [hbase]
        unfold pipeAdd
        rw [if_neg hlt4, h3]
        rfl
      · rcases h4 : parseRatE ((fields (stripComment l)).getD 4 "")
          with e4 | v4
        · refine ⟨e4, ?_⟩
          rw [hbase]
          unfold pipeAdd
          rw [if_neg hlt4, h3]
          simp only [Except.bind]
          rw [if_neg hlt5, h4]
        · rcases h5 : parseRatE ((fields (stripComment l)).getD 5 "")
            with e5 | v5
          · refine ⟨e5, ?_⟩
            rw [hbase]
            unfold pipeAdd
            rw [if_neg hlt4, h3]
            simp only [Except.bind]
            rw [if_neg hlt5, h4]
            simp only [Except.bind]
            rw [if_neg hlt6, h5]
          · refine ⟨"NameError: name minor_loss is not defined", ?_⟩
            rw [hbase]
            unfold pipeAdd
            rw [if_neg hlt4, h3]
            simp only [Except.bind]
            rw [if_neg hlt5, h4]
            simp only [Except.bind]
            rw [if_neg hlt6, h5]
    · intro c hc len dia rough h3 h4 h5
      subst hc
      rw [readPipesAux_cons, if_neg hne, hstep]
      have hadd : pipeAdd u (some c) (fields (stripComment l)) =
          .ok { name := (fields (stripComment l)).getD 0 ""
                startNodeName := (fields (stripComment l)).getD 1 ""
                endNodeName := (fields (stripComment l)).getD 2 ""
                length := toSi u len .Length
                diameter := toSi u dia .PipeDiameter
                roughness := rough
                minorLoss := c.minorLoss
                initialStatus := c.status
                checkValve := c.checkValve } := by
        unfold pipeAdd
        rw [if_neg hlt4, h3]
        simp only [Except.bind]
        rw [if_neg hlt5, h4]
        simp only [Except.bind]
        rw [if_neg hlt6, h5]
      simp only [Except.bind]
      rw [hadd]
      cases hrest : readPipesAux u (some c) rest <;>
        simp [Except.bind, Except.map, hrest]

/-- Witness for the amended C5 at a concrete 9-field record following an
assigned carry. -/
theorem C5_pipes_amended_witness :
    ((fields (stripComment "P9 A B 1 1 100 7 7 7")).length < 4 →
      readPipesAux .SI
          (some { minorLoss := 5, status := .Closed, checkValve := false })
          ["P9 A B 1 1 100 7 7 7"] =
        .error "IndexError: list index out of range") ∧
    ((fields (stripComment "P9 A B 1 1 100 7 7 7")).length = 4 ∨
        (fields (stripComment "P9 A B 1 1 100 7 7 7")).length = 5 →
      ∀ e3, parseRatE ((fields
          (stripComment "P9 A B 1 1 100 7 7 7")).getD 3 "") = .error e3 →
        readPipesAux .SI
            (some { minorLoss := 5, status := .Closed,
                    checkValve := false })
            ["P9 A B 1 1 100 7 7 7"] = .error e3) ∧
    ((fields (stripComment "P9 A B 1 1 100 7 7 7")).length = 4 →
      ∀ v3, parseRatE ((fields
          (stripComment "P9 A B 1 1 100 7 7 7")).getD 3 "") = .ok v3 →
        readPipesAux .SI
            (some { minorLoss := 5, status := .Closed,
                    checkValve := false })
            ["P9 A B 1 1 100 7 7 7"] =
          .error "IndexError: list index out of range") ∧
    ((fields (stripComment "P9 A B 1 1 100 7 7 7")).length = 5 →
      ∀ v3 e4, parseRatE ((fields
          (stripComment "P9 A B 1 1 100 7 7 7")).getD 3 "") = .ok v3 →
        parseRatE ((fields
          (stripComment "P9 A B 1 1 100 7 7 7")).getD 4 "") = .error e4 →
        readPipesAux .SI
            (some { minorLoss := 5, status := .Closed,
                    checkValve := false })
            ["P9 A B 1 1 100 7 7 7"] = .error e4) ∧
    ((fields (stripComment "P9 A B 1 1 100 7 7 7")).length = 5 →
      ∀ v3 v4, parseRatE ((fields
          (stripComment "P9 A B 1 1 100 7 7 7")).getD 3 "") = .ok v3 →
        parseRatE ((fields
          (stripComment "P9 A B 1 1 100 7 7 7")).getD 4 "") = .ok v4 →
        readPipesAux .SI
            (some { minorLoss := 5, status := .Closed,
                    checkValve := false })
            ["P9 A B 1 1 100 7 7 7"] =
          .error "IndexError: list index out of range") ∧
    (9 ≤ (fields (stripComment "P9 A B 1 1 100 7 7 7")).length →
      pipeCarryStep
          (some { minorLoss := 5, status := .Closed, checkValve := false })
          (fields (stripComment "P9 A B 1 1 100 7 7 7")) =
        .ok (some { minorLoss := 5, status := .Closed,
                    checkValve := false }) ∧
      ((some { minorLoss := 5, status := .Closed, checkValve := false } :
          Option PipeCarry) = none →
        ∃ e, readPipesAux .SI
            (some { minorLoss := 5, status := .Closed,
                    checkValve := false })
            ["P9 A B 1 1 100 7 7 7"] = .error e) ∧
      (∀ c : PipeCarry,
        (some { minorLoss := 5, status := .Closed, checkValve := false } :
            Option PipeCarry) = some c →
        ∀ len dia rough,
          parseRatE ((fields
            (stripComment "P9 A B 1 1 100 7 7 7")).getD 3 "") = .ok len →
          parseRatE ((fields
            (stripComment "P9 A B 1 1 100 7 7 7")).getD 4 "") = .ok dia →
          parseRatE ((fields
            (stripComment "P9 A B 1 1 100 7 7 7")).getD 5 "") =
              .ok rough →
          readPipesAux .SI
              (some { minorLoss := 5, status := .Closed,
                      checkValve := false })
              ["P9 A B 1 1 100 7 7 7"] =
            (readPipesAux .SI
                (some { minorLoss := 5, status := .Closed,
                        checkValve := false }) []).map
              (fun ps =>
                ({ name := (fields
                      (stripComment "P9 A B 1 1 100 7 7 7")).getD 0 ""
                   startNodeName := (fields
                      (stripComment "P9 A B 1 1 100 7 7 7")).getD 1 ""
                   endNodeName := (fields
                      (stripComment "P9 A B 1 1 100 7 7 7")).getD 2 ""
                   length := toSi .SI len .Length
                   diameter := toSi .SI dia .PipeDiameter
                   roughness := rough
                   minorLoss := c.minorLoss
                   initialStatus := c.status
                   checkValve := c.checkValve } : PipeRec) :: ps))) :=
  C5_pipes_amended .SI
    (some { minorLoss := 5, status := .Closed, checkValve := false })
    "P9 A B 1 1 100 7 7 7" [] (by decide)

/-- C4: parsing the rule block `RULE R1 / IF TANK T1 LEVEL ABOVE 10 /
THEN PUMP P1 STATUS IS CLOSED / PRIORITY 5` (in a model holding tank
node T1 and pump link P1) produces exactly one rule whose condition is
the single `ValueCondition` on node T1's `level` attribute with relation
`above` and threshold 10 converted to SI hydraulic head, whose
then-actions are the single action setting link P1's status to Closed,
whose else-actions are empty, and whose priority is the integer 5 —
under every flow-unit system. -/
theorem C4_rule_parsing (u : FlowUnits) :
    (parseRulesLines ["RULE R1", "IF TANK T1 LEVEL ABOVE 10",
        "THEN PUMP P1 STATUS IS CLOSED", "PRIORITY 5"]).bind
      (fun rs => rs.mapM (generateControl u
        { nodes := ["T1"], links := [("P1", .pump)] })) =
    .ok [{ cond := some (.value "T1" true "level" "above"
             (.num (toSi u 10 .HydraulicHead)))
           thenActs := [{ link := "P1", attr := "status",
                          value := .status .Closed }]
           elseActs := []
           priority := 5
           name := "R1" }] := by
  cases u <;> rfl

/-- Appending the same suffix to two strings preserves distinctness. -/
theorem strAppendCancel (a b s : String) (h : a ++ s = b ++ s) :
    a = b := by
  obtain ⟨da⟩ := a
  obtain ⟨db⟩ := b
  obtain ⟨ds⟩ := s
  have h2 : da ++ ds = db ++ ds := by
    have h3 := congrArg String.data h
    simpa using h3
  exact congrArg String.mk (List.append_cancel_right h2)

/-- Mapping a function that fixes every member is the identity. -/
theorem mapIdOfMem {α : Type} (l : List α) (f : α → α)
    (h : ∀ a ∈ l, f a = a) : l.map f = l :=
  (List.map_congr_left h).trans (List.map_id l)

/-- Unfolding lemma for `implicitGo` on a cons cell. -/
theorem implicitGo_cons (n : WNNode) (ns : List WNNode) (cur : WN) :
    implicitGo (n :: ns) cur =
      match implicitStep cur n with
      | .error e => .error e
      | .ok cur2 => implicitGo ns cur2 := rfl

/-- The node loop of `implicitLeakToExplicitEMitter` succeeds under the
freshness, membership, demand and name-uniqueness hypotheses, and
appends exactly one synthetic junction, one synthetic pipe and one leak
record per leaking node of the snapshot, in order. -/
theorem implicitGo_spec (ns : List WNNode) :
    ∀ (cur : WN),
      (∀ n ∈ ns, n.leak = true → (n.name ++ "-nn") ∉ nodeNames cur) →
      (∀ n ∈ ns, n.leak = true → (n.name ++ "-elk") ∉ linkNames cur) →
      (∀ n ∈ ns, n.leak = true → n.name ∈ nodeNames cur) →
      (∀ n ∈ ns, n.leak = true →
        ∃ d, n.demands.head? = some d ∧ ¬(mkRat 1 1000 < d)) →
      ((ns.filter fun n => n.leak).map WNNode.name).Nodup →
      implicitGo ns cur = .ok
        { nodes := cur.nodes ++ (ns.filter fun n => n.leak).map synthNode
          links := cur.links ++ (ns.filter fun n => n.leak).map synthPipe
          expicitLeak := cur.expicitLeak ++
            (ns.filter fun n => n.leak).map synthRecord } := by
  induction ns with
  | nil =>
      intro cur _ _ _ _ _
      simp [implicitGo]
  | cons n ns ih =>
      intro cur h1 h2 h3 h4 h5
      by_cases hl : n.leak = true
      · have hnn := h1 n (List.mem_cons_self _ _) hl
        have helk := h2 n (List.mem_cons_self _ _) hl
        have hin := h3 n (List.mem_cons_self _ _) hl
        obtain ⟨d, hd, hdle⟩ := h4 n (List.mem_cons_self _ _) hl
        have hfil : (n :: ns).filter (fun m => m.leak) =
            n :: ns.filter (fun m => m.leak) := by
          simp [List.filter_cons, hl]
        rw [hfil] at h5 ⊢
        simp only [List.map_cons, List.nodup_cons] at h5
        have hstep : implicitStep cur n = .ok
            { nodes := cur.nodes ++ [synthNode n]
              links := cur.links ++ [synthPipe n]
              expicitLeak := cur.expicitLeak ++ [synthRecord n] } := by
          unfold implicitStep
          rw [if_pos hl]
          have haj : addJunction cur (n.name ++ "-nn") n.elevation
              (n.coordX + 1, n.coordY + 1) = .ok
              { cur with nodes := cur.nodes ++
                [{ name := n.name ++ "-nn", elevation := n.elevation,
                   coordX := n.coordX + 1, coordY := n.coordY + 1,
                   leak := false, leakArea := 0, emitter := none,
                   demands := [0] }] } := by
            unfold addJunction
            rw [if_neg hnn]
          simp only [haj]
          have hap : addPipe
              { cur with nodes := cur.nodes ++
                [{ name := n.name ++ "-nn", elevation := n.elevation,
                   coordX := n.coordX + 1, coordY := n.coordY + 1,
                   leak := false, leakArea := 0, emitter := none,
                   demands := [0] }] }
              (n.name ++ "-elk") n.name (n.name ++ "-nn")
              100 1 1000000 true = .ok
              { nodes := cur.nodes ++
                  [{ name := n.name ++ "-nn", elevation := n.elevation,
                     coordX := n.coordX + 1, coordY := n.coordY + 1,
                     leak := false, leakArea := 0, emitter := none,
                     demands := [0] }]
                links := cur.links ++ [synthPipe n]
                expicitLeak := cur.expicitLeak } := by
            unfold addPipe
            rw [if_neg (by simpa [linkNames] using helk)]
            rw [if_pos ?_]
            · rfl
            · constructor
              · simp only [nodeNames, List.map_append]
                exact List.mem_append_left _ hin
              · simp [nodeNames]
          simp only [hap]
          have hse : setEmitter
              { nodes := cur.nodes ++
                  [{ name := n.name ++ "-nn", elevation := n.elevation,
                     coordX := n.coordX + 1, coordY := n.coordY + 1,
                     leak := false, leakArea := 0, emitter := none,
                     demands := [0] }]
                links := cur.links ++ [synthPipe n]
                expicitLeak := cur.expicitLeak }
              (n.name ++ "-nn") (some ⟨n.leakArea⟩) = .ok
              { nodes := cur.nodes ++ [synthNode n]
                links := cur.links ++ [synthPipe n]
                expicitLeak := cur.expicitLeak } := by
            unfold setEmitter
            rw [if_pos (by simp [nodeNames])]
            simp only [List.map_append]
            have hmap : cur.nodes.map (fun m =>
                if m.name = n.name ++ "-nn" then
                  { m with emitter := some ⟨n.leakArea⟩ } else m) =
                cur.nodes := by
              apply mapIdOfMem
              intro m hm
              have hmne : m.name ≠ n.name ++ "-nn" := by
                intro hc
                exact hnn (hc ▸ List.mem_map_of_mem WNNode.name hm)
              simp [hmne]
            rw [hmap]
            simp [synthNode]
          simp only [hse, hd]
          rw [if_neg hdle]
          rfl
        rw [implicitGo_cons]
        simp only [hstep]
        have IH := ih
          { nodes := cur.nodes ++ [synthNode n]
            links := cur.links ++ [synthPipe n]
            expicitLeak := cur.expicitLeak ++ [synthRecord n] }
          (by
            intro m hm hlm
            have hbase := h1 m (List.mem_cons_of_mem _ hm) hlm
            have hname : m.name ≠ n.name := by
              intro hc
              exact h5.1 (hc ▸ List.mem_map_of_mem WNNode.name
                (List.mem_filter.mpr ⟨hm, hlm⟩))
            simp only [nodeNames, List.map_append, List.mem_append]
            push_neg
            refine ⟨by simpa [nodeNames] using hbase, ?_⟩
            simp only [List.map_cons, List.map_nil, List.mem_singleton]
            intro hc
            exact hname (strAppendCancel _ _ _ (by simpa [synthNode]
              using hc))
          )
          (by
            intro m hm hlm
            have hbase := h2 m (List.mem_cons_of_mem _ hm) hlm
            have hname : m.name ≠ n.name := by
              intro hc
              exact h5.1 (hc ▸ List.mem_map_of_mem WNNode.name
                (List.mem_filter.mpr ⟨hm, hlm⟩))
            simp only [linkNames, List.map_append, List.mem_append]
            push_neg
            refine ⟨by simpa [linkNames] using hbase, ?_⟩
            simp only [List.map_cons, List.map_nil, List.mem_singleton]
            intro hc
            exact hname (strAppendCancel _ _ _ (by simpa [synthPipe]
              using hc))
          )
          (by
            intro m hm hlm
            have hbase := h3 m (List.mem_cons_of_mem _ hm) hlm
            simp only [nodeNames, List.map_append, List.mem_append]
            exact Or.inl (by simpa [nodeNames] using hbase)
          )
          (fun m hm hlm => h4 m (List.mem_cons_of_mem _ hm) hlm)
          h5.2
        rw [IH]
        simp [List.append_assoc]
      · have hstep : implicitStep cur n = .ok cur := by
          unfold implicitStep
          rw [if_neg hl]
        rw [implicitGo_cons]
        simp only [hstep]
        have hfil : (n :: ns).filter (fun m => m.leak) =
            ns.filter (fun m => m.leak) := by
          simp [List.filter_cons, hl]
        rw [hfil] at h5 ⊢
        exact ih cur
          (fun m hm hlm => h1 m (List.mem_cons_of_mem _ hm) hlm)
          (fun m hm hlm => h2 m (List.mem_cons_of_mem _ hm) hlm)
          (fun m hm hlm => h3 m (List.mem_cons_of_mem _ hm) hlm)
          (fun m hm hlm => h4 m (List.mem_cons_of_mem _ hm) hlm)
          h5

/-- Unfolding lemma for `resetGo` on a cons cell. -/
theorem resetGo_cons (r : LeakRecord) (rs : List LeakRecord) (cur : WN) :
    resetGo (r :: rs) cur =
      match resetStep cur r with
      | .error e => .error e
      | .ok cur2 => resetGo rs cur2 := rfl

/-- The record loop of `resetExplicitLeak` removes exactly the synthetic
junctions and pipes its leak records name, restoring the original node
and link lists and clearing `expicit_leak`. -/
theorem resetGo_spec (L : List WNNode) :
    ∀ (nds : List WNNode) (lks : List WNLink) (E : List LeakRecord),
      (∀ n ∈ L, (n.name ++ "-nn") ∉ nds.map WNNode.name) →
      (∀ n ∈ L, (n.name ++ "-elk") ∉ lks.map WNLink.name) →
      (∀ n ∈ L, ∀ l ∈ lks,
        l.startNodeName ≠ n.name ++ "-nn" ∧
        l.endNodeName ≠ n.name ++ "-nn") →
      (∀ n ∈ L, ∀ m ∈ L, m.name ≠ n.name ++ "-nn") →
      (L.map WNNode.name).Nodup →
      resetGo (L.map synthRecord)
        { nodes := nds ++ L.map synthNode
          links := lks ++ L.map synthPipe
          expicitLeak := E } =
      .ok { nodes := nds, links := lks, expicitLeak := [] } := by
  induction L with
  | nil =>
      intro nds lks E _ _ _ _ _
      simp [resetGo]
  | cons n ns ih =>
      intro nds lks E h1 h2 h3 h4 h5
      have hnn := h1 n (List.mem_cons_self _ _)
      have helk := h2 n (List.mem_cons_self _ _)
      simp only [List.map_cons, List.nodup_cons] at h5
      simp only [List.map_cons]
      rw [resetGo_cons]
      have hrl : removeLinkForce
          { nodes := nds ++ synthNode n :: List.map synthNode ns
            links := lks ++ synthPipe n :: List.map synthPipe ns
            expicitLeak := E } (n.name ++ "-elk") = .ok
          { nodes := nds ++ synthNode n :: List.map synthNode ns
            links := lks ++ List.map synthPipe ns
            expicitLeak := E } := by
        unfold removeLinkForce
        rw [if_pos ?_]
        · have hlks : lks.filter
              (fun l => l.name ≠ n.name ++ "-elk") = lks := by
            apply List.filter_eq_self.mpr
            intro l hl
            have hne : l.name ≠ n.name ++ "-elk" := by
              intro hc
              exact helk (hc ▸ List.mem_map_of_mem WNLink.name hl)
            simp [hne]
          have hns : (List.map synthPipe ns).filter
              (fun l => l.name ≠ n.name ++ "-elk") =
              List.map synthPipe ns := by
            apply List.filter_eq_self.mpr
            intro l hl
            obtain ⟨k, hk, rfl⟩ := List.mem_map.mp hl
            have hne : k.name ++ "-elk" ≠ n.name ++ "-elk" := by
              intro hc
              exact h5.1 (strAppendCancel _ _ _ hc ▸
                List.mem_map_of_mem WNNode.name hk)
            simp [synthPipe, hne]
          rw [List.filter_append, List.filter_cons]
          rw [if_neg (by simp [synthPipe])]
          rw [hlks, hns]
        · simp [linkNames, synthPipe]
      have hse : setEmitter
          { nodes := nds ++ synthNode n :: List.map synthNode ns
            links := lks ++ List.map synthPipe ns
            expicitLeak := E } (n.name ++ "-nn") none = .ok
          { nodes := nds ++ { synthNode n with emitter := none } ::
              List.map synthNode ns
            links := lks ++ List.map synthPipe ns
            expicitLeak := E } := by
        unfold setEmitter
        rw [if_pos ?_]
        · have hmap1 : nds.map (fun m =>
              if m.name = n.name ++ "-nn" then
                { m with emitter := none } else m) = nds := by
            apply mapIdOfMem
            intro m hm
            have hmne : m.name ≠ n.name ++ "-nn" := by
              intro hc
              exact hnn (hc ▸ List.mem_map_of_mem WNNode.name hm)
            simp [hmne]
          have hmap2 : (List.map synthNode ns).map (fun m =>
              if m.name = n.name ++ "-nn" then
                { m with emitter := none } else m) =
              List.map synthNode ns := by
            apply mapIdOfMem
            intro m hm
            obtain ⟨k, hk, rfl⟩ := List.mem_map.mp hm
            have hkne : (synthNode k).name ≠ n.name ++ "-nn" := by
              simp only [synthNode]
              intro hc
              exact h5.1 (strAppendCancel _ _ _ hc ▸
                List.mem_map_of_mem WNNode.name hk)
            simp [hkne]
          rw [List.map_append, List.map_cons, hmap1, hmap2]
          simp [synthNode]
        · simp [nodeNames, synthNode]
      have hrn : removeNodeForce
          { nodes := nds ++ { synthNode n with emitter := none } ::
              List.map synthNode ns
            links := lks ++ List.map synthPipe ns
            expicitLeak := E } (n.name ++ "-nn") = .ok
          { nodes := nds ++ List.map synthNode ns
            links := lks ++ List.map synthPipe ns
            expicitLeak := E } := by
        unfold removeNodeForce
        rw [if_pos ?_]
        · have hnds : nds.filter
              (fun m => m.name ≠ n.name ++ "-nn") = nds := by
            apply List.filter_eq_self.mpr
            intro m hm
            have hmne : m.name ≠ n.name ++ "-nn" := by
              intro hc
              exact hnn (hc ▸ List.mem_map_of_mem WNNode.name hm)
            simp [hmne]
          have hnns : (List.map synthNode ns).filter
              (fun m => m.name ≠ n.name ++ "-nn") =
              List.map synthNode ns := by
            apply List.filter_eq_self.mpr
            intro m hm
            obtain ⟨k, hk, rfl⟩ := List.mem_map.mp hm
            have hkne : k.name ++ "-nn" ≠ n.name ++ "-nn" := by
              intro hc
              exact h5.1 (strAppendCancel _ _ _ hc ▸
                List.mem_map_of_mem WNNode.name hk)
            simp [synthNode, hkne]
          have hlks2 : lks.filter (fun l =>
              l.startNodeName ≠ n.name ++ "-nn" ∧
              l.endNodeName ≠ n.name ++ "-nn") = lks := by
            apply List.filter_eq_self.mpr
            intro l hl
            have hb := h3 n (List.mem_cons_self _ _) l hl
            simp [hb.1, hb.2]
          have hlns : (List.map synthPipe ns).filter (fun l =>
              l.startNodeName ≠ n.name ++ "-nn" ∧
              l.endNodeName ≠ n.name ++ "-nn") =
              List.map synthPipe ns := by
            apply List.filter_eq_self.mpr
            intro l hl
            obtain ⟨k, hk, rfl⟩ := List.mem_map.mp hl
            have hs := h4 n (List.mem_cons_self _ _) k
              (List.mem_cons_of_mem _ hk)
            have he : k.name ++ "-nn" ≠ n.name ++ "-nn" := by
              intro hc
              exact h5.1 (strAppendCancel _ _ _ hc ▸
                List.mem_map_of_mem WNNode.name hk)
            simp [synthPipe, hs, he]
          rw [List.filter_append, List.filter_cons]
          rw [if_neg (by simp [synthNode])]
          rw [hnds, hnns, List.filter_append, hlks2, hlns]
        · simp [nodeNames, synthNode]
      have hstep : resetStep
          { nodes := nds ++ synthNode n :: List.map synthNode ns
            links := lks ++ synthPipe n :: List.map synthPipe ns
            expicitLeak := E } (synthRecord n) = .ok
          { nodes := nds ++ List.map synthNode ns
            links := lks ++ List.map synthPipe ns
            expicitLeak := E } := by
        unfold resetStep
        simp only [synthRecord]
        simp only [hrl]
        simp only [hse]
        simp only [hrn]
      simp only [hstep]
      exact ih nds lks E
        (fun m hm => h1 m (List.mem_cons_of_mem _ hm))
        (fun m hm => h2 m (List.mem_cons_of_mem _ hm))
        (fun m hm => h3 m (List.mem_cons_of_mem _ hm))
        (fun m hm k hk => h4 m (List.mem_cons_of_mem _ hm) k
          (List.mem_cons_of_mem _ hk))
        h5.2

/-- The number of report times equals the expected number of rows. -/
theorem usedReportTimes_length (p : BinProlog) :
    (usedReportTimes p).length = expectedRows p := by
  unfold usedReportTimes expectedRows
  by_cases h : p.statsflag = .Minimum ∨ p.statsflag = .Maximum ∨
      p.statsflag = .Range
  · rw [if_pos h, if_pos h]
    rfl
  · rw [if_neg h, if_neg h]

/-- C2: for a binary file whose report region holds fewer full rows than
the expected row count, `BinFile.read` raises a convergence error in
strict mode (`convergence_error=True`), and in lenient mode returns a
results object whose error code is set and whose time index has exactly
the number of full rows present in the file. -/
theorem C2_truncated_rows (p : BinProlog) (raw : List ℚ)
    (epilog : Option BinEpilog)
    (hw : 0 < rowWidth p)
    (hlt : raw.length / rowWidth p < expectedRows p) :
    binRead p raw epilog true =
      .error "RuntimeError: Simulation did not converge" ∧
    ∃ res g, binRead p raw epilog false = .ok (res, g) ∧
      res.error_code = true ∧
      res.time.length = raw.length / rowWidth p := by
  have hraw : raw.length < expectedRows p * rowWidth p :=
    (Nat.div_lt_iff_lt_mul hw).mp hlt
  have hdata : raw.take (rowWidth p * expectedRows p) = raw := by
    apply List.take_of_length_le
    calc raw.length ≤ expectedRows p * rowWidth p := le_of_lt hraw
      _ = rowWidth p * expectedRows p := Nat.mul_comm _ _
  constructor
  · simp only [binRead, hdata]
    split
    · rfl
    · rename_i hcond
      exact absurd hlt hcond
  · refine ⟨{ time := (usedReportTimes p).take (raw.length / rowWidth p)
              rows := chunkRows (rowWidth p)
                (raw.take (raw.length / rowWidth p * rowWidth p))
              error_code := true },
      decide (Option.map BinEpilog.magic epilog = some p.magic),
      ?_, rfl, ?_⟩
    · simp only [binRead, hdata]
      split
      · rfl
      · rename_i hcond
        exact absurd hlt hcond
    · simp only [List.length_take, usedReportTimes_length]
      exact Nat.min_eq_left (le_of_lt hlt)

/-- Witness for C2 at a concrete truncated binary file: one node, no
links (row width 4), three expected rows, only five floats present (one
full row). -/
theorem C2_truncated_rows_witness :
    binRead
        { magic := 516114521, nnodes := 1, nlinks := 0,
          statsflag := .NoStats, reportstart := 0, reportstep := 1,
          duration := 2 }
        [1, 2, 3, 4, 5] none true =
      .error "RuntimeError: Simulation did not converge" ∧
    ∃ res g,
      binRead
          { magic := 516114521, nnodes := 1, nlinks := 0,
            statsflag := .NoStats, reportstart := 0, reportstep := 1,
            duration := 2 }
          [1, 2, 3, 4, 5] none false = .ok (res, g) ∧
      res.error_code = true ∧
      res.time.length =
        ([1, 2, 3, 4, 5] : List ℚ).length /
          rowWidth
            { magic := 516114521, nnodes := 1, nlinks := 0,
              statsflag := .NoStats, reportstart := 0, reportstep := 1,
              duration := 2 } :=
  C2_truncated_rows
    { magic := 516114521, nnodes := 1, nlinks := 0, statsflag := .NoStats,
      reportstart := 0, reportstep := 1, duration := 2 }
    [1, 2, 3, 4, 5] none (by decide) (by decide)

/-- C8: for a binary file that is complete apart from an epilog closing
magic number that differs from the prolog magic number, `BinFile.read`
does not raise, and it returns exactly the results it would return for a
matching magic number (all decoded series intact, no error code); the
mismatch only changes the `good_read` flag that is logged and passed to
`finalize_save`. -/
theorem C8_magic_mismatch (p : BinProlog) (raw : List ℚ) (ep : BinEpilog)
    (strict : Bool)
    (hrows : expectedRows p ≤ raw.length / rowWidth p)
    (hmagic : ep.magic ≠ p.magic) :
    ∃ res,
      binRead p raw (some ep) strict = .ok (res, false) ∧
      binRead p raw
          (some { averages := ep.averages, warnflag := ep.warnflag,
                  magic := p.magic }) strict = .ok (res, true) ∧
      res.error_code = false ∧
      res.time = usedReportTimes p := by
  have hN : ¬(expectedRows p >
      (raw.take (rowWidth p * expectedRows p)).length / rowWidth p) := by
    rcases Nat.eq_zero_or_pos (rowWidth p) with hw | hw
    · have h0 : expectedRows p = 0 := by
        have h1 := hrows
        rw [hw, Nat.div_zero] at h1
        exact Nat.le_zero.mp h1
      rw [h0]
      exact Nat.not_lt_zero _
    · have hmul : rowWidth p * expectedRows p ≤ raw.length := by
        calc rowWidth p * expectedRows p
            ≤ rowWidth p * (raw.length / rowWidth p) :=
              Nat.mul_le_mul_left _ hrows
          _ ≤ raw.length := Nat.mul_div_le _ _
      have hlen : (raw.take (rowWidth p * expectedRows p)).length =
          rowWidth p * expectedRows p := by
        rw [List.length_take]
        exact Nat.min_eq_left hmul
      rw [hlen, Nat.mul_div_cancel_left _ hw]
      exact lt_irrefl _
  have hgood1 : decide (Option.map BinEpilog.magic (some ep) =
      some p.magic) = false := by
    simp [hmagic]
  refine ⟨{ time := usedReportTimes p
            rows := chunkRows (rowWidth p)
              (raw.take (rowWidth p * expectedRows p))
            error_code := false }, ?_, ?_, rfl, rfl⟩
  · simp only [binRead]
    split
    · rename_i hcond
      exact absurd hcond hN
    · rw [hgood1]
  · simp only [binRead]
    split
    · rename_i hcond
      exact absurd hcond hN
    · simp

/-- Witness for C8 at a concrete complete binary file whose epilog magic
number does not match the prolog. -/
theorem C8_magic_mismatch_witness :
    ∃ res,
      binRead
          { magic := 516114521, nnodes := 1, nlinks := 0,
            statsflag := .NoStats, reportstart := 0, reportstep := 1,
            duration := 2 }
          [1, 2, 3, 4, 5, 6, 7, 8, 9, 10, 11, 12]
          (some { averages := [0, 0, 0, 0], warnflag := 0, magic := 7 })
          false = .ok (res, false) ∧
      binRead
          { magic := 516114521, nnodes := 1, nlinks := 0,
            statsflag := .NoStats, reportstart := 0, reportstep := 1,
            duration := 2 }
          [1, 2, 3, 4, 5, 6, 7, 8, 9, 10, 11, 12]
          (some { averages := [0, 0, 0, 0], warnflag := 0,
                  magic := 516114521 }) false = .ok (res, true) ∧
      res.error_code = false ∧
      res.time = usedReportTimes
        { magic := 516114521, nnodes := 1, nlinks := 0,
          statsflag := .NoStats, reportstart := 0, reportstep := 1,
          duration := 2 } :=
  C8_magic_mismatch
    { magic := 516114521, nnodes := 1, nlinks := 0, statsflag := .NoStats,
      reportstart := 0, reportstep := 1, duration := 2 }
    [1, 2, 3, 4, 5, 6, 7, 8, 9, 10, 11, 12]
    { averages := [0, 0, 0, 0], warnflag := 0, magic := 7 }
    false (by decide) (by decide)

/-- Witness for C9 at a concrete tank and result head. -/
theorem C9_tank_clamp_witness :
    ∃ t1,
      processTank (fun n => if n = "T1" then some (12 : ℚ) else none)
        { name := "T1", elevation := 2, init_level := 1, min_level := 3,
          max_level := 8, is_isolated := false } = .ok t1 ∧
      (3 : ℚ) ≤ t1.init_level ∧ t1.init_level ≤ 8 := by
  exact C9_tank_clamp
    { name := "T1", elevation := 2, init_level := 1, min_level := 3,
      max_level := 8, is_isolated := false }
    (fun n => if n = "T1" then some (12 : ℚ) else none) 12
    rfl (by norm_num) (by norm_num) (by norm_num)

/-- C10 counterexample: `c10Example` satisfies the claim's hypotheses
(empty `expicit_leak`, every leaking node's first base demand at most
0.001), yet the round trip aborts with a duplicate-name error while
adding B's synthetic junction (an unrelated node already carries the
name `B-nn`), leaving A's synthetic junction and leak record behind: the
node-name set is not restored and `expicit_leak` is not empty. -/
theorem C10_leak_counterexample :
    c10Example.expicitLeak = [] ∧
    (∀ n ∈ c10Example.nodes, n.leak = true →
      n.demands.head? = some 0 ∧ ¬(mkRat 1 1000 < (0 : ℚ))) ∧
    exceptIsOk (leakRoundTrip c10Example) = false ∧
    nodeNames (leakFinalState c10Example) ≠ nodeNames c10Example ∧
    (leakFinalState c10Example).expicitLeak ≠ [] := by decide

/-- C10 (amended): for a model with empty `expicit_leak`, whose leaking
nodes each have a first base demand not exceeding 0.001, whose derived
synthetic names `s-nn` / `s-elk` are fresh, whose links reference
existing nodes, and whose node names are unique,
`implicitLeakToExplicitEMitter` followed by `resetExplicitLeak` restores
the original node and link lists exactly and leaves `expicit_leak`
empty. -/
theorem C10_leak_amended (wn : WN)
    (hempty : wn.expicitLeak = [])
    (hdem : ∀ n ∈ wn.nodes, n.leak = true →
      ∃ d, n.demands.head? = some d ∧ ¬(mkRat 1 1000 < d))
    (hfreshN : ∀ n ∈ wn.nodes, n.leak = true →
      (n.name ++ "-nn") ∉ nodeNames wn)
    (hfreshL : ∀ n ∈ wn.nodes, n.leak = true →
      (n.name ++ "-elk") ∉ linkNames wn)
    (hint : ∀ l ∈ wn.links,
      l.startNodeName ∈ nodeNames wn ∧ l.endNodeName ∈ nodeNames wn)
    (hnodup : (nodeNames wn).Nodup) :
    leakRoundTrip wn =
      .ok { nodes := wn.nodes, links := wn.links, expicitLeak := [] } := by
  have hsub : ((wn.nodes.filter fun n => n.leak).map
      WNNode.name).Sublist (wn.nodes.map WNNode.name) :=
    (List.filter_sublist _).map _
  have hnodsub := List.Nodup.sublist hsub hnodup
  have himpl : implicitLeakToExplicitEmitter wn = .ok
      { nodes := wn.nodes ++
          (wn.nodes.filter fun n => n.leak).map synthNode
        links := wn.links ++
          (wn.nodes.filter fun n => n.leak).map synthPipe
        expicitLeak :=
          (wn.nodes.filter fun n => n.leak).map synthRecord } := by
    unfold implicitLeakToExplicitEmitter
    rw [hempty]
    simp only [List.length_nil, gt_iff_lt, lt_self_iff_false, if_false]
    rw [implicitGo_spec wn.nodes wn hfreshN hfreshL
      (fun n hn _ => List.mem_map_of_mem WNNode.name hn) hdem hnodsub]
    rw [hempty]
    simp
  unfold leakRoundTrip
  rw [himpl]
  unfold resetExplicitLeak
  exact resetGo_spec (wn.nodes.filter fun n => n.leak)
    wn.nodes wn.links
    ((wn.nodes.filter fun n => n.leak).map synthRecord)
    (fun n hn => hfreshN n (List.mem_filter.mp hn).1
      (by simpa using (List.mem_filter.mp hn).2))
    (fun n hn => hfreshL n (List.mem_filter.mp hn).1
      (by simpa using (List.mem_filter.mp hn).2))
    (fun n hn l hl => by
      have hfr := hfreshN n (List.mem_filter.mp hn).1
        (by simpa using (List.mem_filter.mp hn).2)
      have hi := hint l hl
      exact ⟨fun hc => hfr (hc ▸ hi.1), fun hc => hfr (hc ▸ hi.2)⟩)
    (fun n hn m hm => by
      have hfr := hfreshN n (List.mem_filter.mp hn).1
        (by simpa using (List.mem_filter.mp hn).2)
      have hmem : m.name ∈ nodeNames wn :=
        List.mem_map_of_mem WNNode.name (List.mem_filter.mp hm).1
      exact fun hc => hfr (hc ▸ hmem))
    hnodsub

/-- Witness for the amended C10 at a concrete one-leak model. -/
theorem C10_leak_amended_witness :
    leakRoundTrip c10Witness =
      .ok { nodes := c10Witness.nodes, links := c10Witness.links,
            expicitLeak := [] } :=
  C10_leak_amended c10Witness rfl
    (by intro n hn hl
        simp only [c10Witness] at hn
        rw [List.mem_singleton] at hn
        subst hn
        exact ⟨0, rfl, by decide⟩)
    (by decide) (by decide) (by decide) (by decide)

end REWET
